import Mathlib

/-!
# Electric field module (`src/gromacs/applied-forces/electricfield.cpp`)

A shallow embedding of the electric-field extension: the per-axis storage unit
`ElectricFieldData`, the three-axis `ElectricField`, its tpr codec `doTpxIO`,
the mdp conversions `convertStaticParameters` and `convertDynamicParameters`,
the broadcast, the comparison, the force calculation with the field file, and
the activity test.  The C++ type `real` is embedded as an arbitrary type `α`
with a zero and decidable equality wherever the code only stores, copies and
compares values, as an ordered field where it is compared within a
tolerance, and as `ℝ` where the code calls `std::cos` / `std::exp`.
-/

namespace gmx

/-- Number of spatial dimensions (`DIM`, with `XX = 0`, `YY = 1`, `ZZ = 2`). -/
def DIM : Nat := 3

/-- Largest value of the C++ type `int`. -/
def INT_MAX : Int := 2147483647

/-- Ways in which a call can stop without returning: `gmx_fatal`, a thrown
`InvalidInputError`, a failed read of the file handle, `std::length_error`
from `std::vector::resize`, and behaviour the language leaves undefined
(access outside a buffer, signed overflow). -/
inductive GmxError where
  | fatal (msg : String)
  | invalidInput (msg : String)
  | ioError
  | lengthError
  | undefinedBehaviour (what : String)
  deriving DecidableEq, Repr

/-- Storage unit for one field component (`class ElectricFieldData`). -/
structure ElectricFieldData (α : Type) where
  a_ : α
  omega_ : α
  t0_ : α
  sigma_ : α
  deriving DecidableEq, Repr

namespace ElectricFieldData

/-- Default constructor: `a_(0), omega_(0), t0_(0), sigma_(0)`. -/
def init {α : Type} [Zero α] : ElectricFieldData α :=
  { a_ := 0, omega_ := 0, t0_ := 0, sigma_ := 0 }

/-- The squaring helper `square(x) = x * x`. -/
noncomputable def square (x : ℝ) : ℝ := x * x

/-- Evaluates this field component at time `t` (`ElectricFieldData::evaluate`). -/
noncomputable def evaluate (self : ElectricFieldData ℝ) (t : ℝ) : ℝ :=
  if self.sigma_ > 0 then
    self.a_ * (Real.cos (self.omega_ * (t - self.t0_))
               * Real.exp (-square (t - self.t0_) / (2.0 * square self.sigma_)))
  else
    self.a_ * Real.cos (self.omega_ * t)

/-- Sets all four values at once (`ElectricFieldData::setField`). -/
def setField {α : Type} (_self : ElectricFieldData α) (a omega t0 sigma : α) :
    ElectricFieldData α :=
  { a_ := a, omega_ := omega, t0_ := t0, sigma_ := sigma }

end ElectricFieldData

/-- The field in each dimension (`ElectricFieldData efield_[DIM]` of
`class ElectricField`). -/
structure ElectricField (α : Type) where
  efield_ : Fin 3 → ElectricFieldData α

namespace ElectricField

variable {α : Type}

/-- Default construction: every component is default constructed. -/
def init [Zero α] : ElectricField α :=
  { efield_ := fun _ => ElectricFieldData.init }

/-- Amplitude of the field in direction `dim`. -/
def a (self : ElectricField α) (dim : Fin 3) : α := (self.efield_ dim).a_

/-- Frequency of the field in direction `dim`. -/
def omega (self : ElectricField α) (dim : Fin 3) : α := (self.efield_ dim).omega_

/-- Time of the pulse peak in direction `dim`. -/
def t0 (self : ElectricField α) (dim : Fin 3) : α := (self.efield_ dim).t0_

/-- Width of the pulse in direction `dim`. -/
def sigma (self : ElectricField α) (dim : Fin 3) : α := (self.efield_ dim).sigma_

/-- The call `range_check(dim, 0, DIM)` followed by `efield_[dim].setField(...)`
(`ElectricField::setFieldTerm`). -/
def setFieldTerm (self : ElectricField α) (dim : Int) (a omega t0 sigma : α) :
    Except GmxError (ElectricField α) :=
  if 0 ≤ dim ∧ dim < (DIM : Int) then
    .ok { efield_ := fun m =>
            if (m.val : Int) = dim then (self.efield_ m).setField a omega t0 sigma
            else self.efield_ m }
  else
    .error (.fatal "Range check failed")

/-- The field strength in direction `dim` at time `t` (`ElectricField::field`). -/
noncomputable def field (self : ElectricField ℝ) (dim : Fin 3) (t : ℝ) : ℝ :=
  (self.efield_ dim).evaluate t

/-- Whether or not to apply a field (`ElectricField::isActive`). -/
def isActive [Zero α] [DecidableEq α] (self : ElectricField α) : Bool :=
  decide ((self.efield_ 0).a_ ≠ 0 ∨ (self.efield_ 1).a_ ≠ 0 ∨ (self.efield_ 2).a_ ≠ 0)

end ElectricField

/-! ## The tpr codec -/

variable {α : Type}

/-- One item of a tpr record stream: an integer or a real. -/
inductive TpxItem (α : Type) where
  | int (v : Int)
  | real (v : α)
  deriving DecidableEq, Repr

/-- Modelled from the spec: the file handle `t_fileio` of the fileio library, which is
not part of this source file. It is the sequence of items of the record; a
read takes the item at the front, a write appends at the back. -/
abbrev t_fileio (α : Type) := List (TpxItem α)

/-- Modelled from the spec: `gmx_fio_do_int(fio, item)` of the fileio library. Reading
replaces `item` by the integer at the front of the record and fails when the
front is not an integer; writing appends `item`. -/
def gmx_fio_do_int (fio : t_fileio α) (bRead : Bool) (item : Int) :
    Except GmxError (Int × t_fileio α) :=
  if bRead then
    match fio with
    | .int v :: rest => .ok (v, rest)
    | _ => .error .ioError
  else
    .ok (item, fio ++ [.int item])

/-- Modelled from the spec: `gmx_fio_do_real(fio, item[i])` of the fileio library, on
slot `i` of the buffer `item`. Reading takes the real at the front of the
record and stores it in slot `i`; writing appends the content of slot `i`.
A slot outside the buffer is undefined behaviour. -/
def gmx_fio_do_real (fio : t_fileio α) (bRead : Bool) (item : List α) (i : Nat) :
    Except GmxError (List α × t_fileio α) :=
  if bRead then
    match fio with
    | .real v :: rest =>
      if i < item.length then .ok (item.set i v, rest)
      else .error (.undefinedBehaviour "write outside the buffer")
    | _ => .error .ioError
  else
    match item.get? i with
    | some v => .ok (item, fio ++ [.real v])
    | none => .error (.undefinedBehaviour "read outside the buffer")

/-- The loop `for (i = 0; i < n; i++) gmx_fio_do_real(fio, item[i])`, with
`count` iterations left and `i` the next slot. -/
def gmx_fio_ndo_real_loop (bRead : Bool) :
    (count : Nat) → (i : Nat) → (item : List α) → (fio : t_fileio α) →
    Except GmxError (List α × t_fileio α)
  | 0, _, item, fio => .ok (item, fio)
  | count + 1, i, item, fio =>
    match gmx_fio_do_real fio bRead item i with
    | .ok (item1, fio1) => gmx_fio_ndo_real_loop bRead count (i + 1) item1 fio1
    | .error e => .error e

/-- Modelled from the spec: `gmx_fio_ndo_real(fio, item, n)` of the fileio library:
`n` reals, slot by slot; nothing when `n <= 0`. -/
def gmx_fio_ndo_real (fio : t_fileio α) (bRead : Bool) (item : List α) (n : Int) :
    Except GmxError (List α × t_fileio α) :=
  gmx_fio_ndo_real_loop bRead n.toNat 0 item fio

/-- The expression `n + 1` on the C++ type `int`: overflow is undefined. -/
def intSucc (n : Int) : Except GmxError Int :=
  if n + 1 ≤ INT_MAX then .ok (n + 1)
  else .error (.undefinedBehaviour "signed integer overflow")

/-- The call `v.resize(count)` on an empty `std::vector<real>`: `count` value
initialised slots; a negative `int` converts to a size above `max_size()`. -/
def vectorResize [Zero α] (count : Int) : Except GmxError (List α) :=
  if count < 0 then .error .lengthError
  else .ok (List.replicate count.toNat 0)

/-- The access `v[i]` on a `std::vector`. -/
def vectorAt {β : Type} (v : List β) (i : Nat) : Except GmxError β :=
  match v.get? i with
  | some x => .ok x
  | none => .error (.undefinedBehaviour "read outside the buffer")

/-- The access `v[0]` on a `std::vector<real>`. -/
def vectorFront (v : List α) : Except GmxError α :=
  match v with
  | x :: _ => .ok x
  | [] => .error (.undefinedBehaviour "read outside the buffer")

/-- The message of the fatal error of the reader. -/
def moreThanOneTermMsg : String :=
  "Can not handle tpr files with more than one electric field term per direction."

namespace ElectricField

/-- The body of the loop over `j` in `ElectricField::doTpxIO`. -/
def doTpxIOAxis [Zero α] [DecidableEq α] (self : ElectricField α) (fio : t_fileio α)
    (bRead : Bool) (j : Fin 3) : Except GmxError (ElectricField α × t_fileio α) := do
  let n0 : Int := if !bRead then 1 else 0
  let nt0 : Int :=
    if !bRead ∧ (self.omega j ≠ 0 ∨ self.sigma j ≠ 0 ∨ self.t0 j ≠ 0) then 1 else 0
  let (n, fio) ← gmx_fio_do_int fio bRead n0
  let (nt, fio) ← gmx_fio_do_int fio bRead nt0
  let (aa, phi, at_, phit) ←
    if !bRead then
      (.ok ([self.a j], [self.t0 j], [self.omega j], [self.sigma j]) :
        Except GmxError (List α × List α × List α × List α))
    else do
      let aa ← vectorResize (← intSucc n)
      let phi ← vectorResize (← intSucc nt)
      let at_ ← vectorResize (← intSucc nt)
      let phit ← vectorResize (← intSucc nt)
      pure (aa, phi, at_, phit)
  let (aa, fio) ← gmx_fio_ndo_real fio bRead aa n
  let (phi, fio) ← gmx_fio_ndo_real fio bRead phi n
  let (at_, fio) ← gmx_fio_ndo_real fio bRead at_ nt
  let (phit, fio) ← gmx_fio_ndo_real fio bRead phit nt
  if bRead ∧ n > 0 then
    let self1 ← self.setFieldTerm (j.val : Int) (← vectorFront aa) (← vectorFront at_)
      (← vectorFront phi) (← vectorFront phit)
    if n > 1 ∨ nt > 1 then
      .error (.fatal moreThanOneTermMsg)
    else
      pure (self1, fio)
  else
    pure (self, fio)

/-- The loop `for (int j = 0; (j < DIM); j++)` of `ElectricField::doTpxIO`. -/
def doTpxIO [Zero α] [DecidableEq α] (self : ElectricField α) (fio : t_fileio α)
    (bRead : Bool) : Except GmxError (ElectricField α × t_fileio α) :=
  [0, 1, 2].foldlM (fun (st : ElectricField α × t_fileio α) (j : Fin 3) =>
    doTpxIOAxis st.1 st.2 bRead j) (self, fio)

end ElectricField

/-! ### The record layout in the words of the specification -/

/-- The items of one axis of a written record, as the specification lists
them: the integer `n = 1`, the integer `nt` that is 1 iff any of
angularFrequency, pulseCenter, pulseWidth is nonzero, the reals amplitude and
pulseCenter, and the reals angularFrequency and pulseWidth exactly when
`nt = 1`. -/
def writeLayoutAxis [Zero α] [DecidableEq α] (term : ElectricFieldData α) :
    List (TpxItem α) :=
  let nt : Int := if term.omega_ ≠ 0 ∨ term.t0_ ≠ 0 ∨ term.sigma_ ≠ 0 then 1 else 0
  [.int 1, .int nt, .real term.a_, .real term.t0_]
    ++ (if nt = 1 then [.real term.omega_, .real term.sigma_] else [])

/-- The record of one axis as a reader meets it: the declared counts `n` and
`nt` and the values of the four arrays. -/
structure TpxAxisRecord (α : Type) where
  n : Int
  nt : Int
  aa : List α
  phi : List α
  at_ : List α
  phit : List α

namespace TpxAxisRecord

/-- The items of an axis record in stream order: `n`, `nt`, then the arrays
amplitude, pulseCenter, angularFrequency, pulseWidth. -/
def encode (r : TpxAxisRecord α) : List (TpxItem α) :=
  [.int r.n, .int r.nt] ++ r.aa.map .real ++ r.phi.map .real
    ++ r.at_.map .real ++ r.phit.map .real

/-- An axis record carries the values its counts declare: counts of type `int`
that are not negative and leave room for `count + 1`, `n` values of amplitude
and pulseCenter, `nt` values of angularFrequency and pulseWidth. -/
def WellFormed (r : TpxAxisRecord α) : Prop :=
  0 ≤ r.n ∧ r.n < INT_MAX ∧ 0 ≤ r.nt ∧ r.nt < INT_MAX ∧
  r.aa.length = r.n.toNat ∧ r.phi.length = r.n.toNat ∧
  r.at_.length = r.nt.toNat ∧ r.phit.length = r.nt.toNat

/-- The pulseCenter values of the record fit the buffer `phi`, which the
reader sizes `nt + 1`. -/
def PhiFits (r : TpxAxisRecord α) : Prop := r.n ≤ r.nt + 1

/-- The guard of the reader: the axis has a term (`n > 0`) and declares more
than one static or dynamic term. -/
def Rejected (r : TpxAxisRecord α) : Prop := r.n > 0 ∧ (r.n > 1 ∨ r.nt > 1)

end TpxAxisRecord

/-! ## Conversion of the mdp format -/

/-- The C classification `std::isspace` in the default locale. -/
def isspace (c : Char) : Bool :=
  c = ' ' ∨ c = '\t' ∨ c = '\n' ∨ c = '\x0b' ∨ c = '\x0c' ∨ c = '\r'

/-- The scan of `splitString` over the characters left: `cur` holds the
characters of the token being read, in reverse, and `acc` the tokens found,
in reverse. -/
def splitStringAux : List Char → List Char → List String → List String
  | [], cur, acc =>
    (if cur.isEmpty then acc else String.mk cur.reverse :: acc).reverse
  | c :: cs, cur, acc =>
    if isspace c then
      splitStringAux cs [] (if cur.isEmpty then acc else String.mk cur.reverse :: acc)
    else
      splitStringAux cs (c :: cur) acc

/-- Modelled from the spec: `splitString` of the string utilities, which is not part
of this source file: the maximal runs of non-space characters, in order. -/
def splitString (str : String) : List String :=
  splitStringAux str.data [] []

/-- Modelled from the spec: the conversions `fromString<int>` and `fromString<real>`
of the string-conversion utilities, which are not part of this source file.
Each returns the value of a token or throws. -/
structure StrConvert (α : Type) where
  fromStringInt : String → Except GmxError Int
  fromStringReal : String → Except GmxError α

/-- Converts static parameters from mdp format to E0
(`convertStaticParameters`). -/
def convertStaticParameters [Zero α] (cv : StrConvert α) (value : String) :
    Except GmxError α :=
  let sx := splitString value
  match sx with
  | [] => .ok 0
  | sx0 :: _ =>
    match cv.fromStringInt sx0 with
    | .error e => .error e
    | .ok n =>
      if n ≤ 0 then .ok 0
      else if n ≠ 1 then
        .error (.invalidInput "Only one electric field term supported for each dimension")
      else if sx.length ≠ 3 then
        .error (.invalidInput "Expected exactly one electric field amplitude value")
      else
        match vectorAt sx 1 with
        | .ok sx1 => cv.fromStringReal sx1
        | .error e => .error e

/-- Modelled from the spec: the object builder `KeyValueTreeObjectBuilder` of the
key-value tree utilities, which is not part of this source file: the keys
added so far with their values, in the order they were added. -/
abbrev KeyValueTreeObjectBuilder (α : Type) := List (String × α)

/-- Modelled from the spec: `builder->addValue<real>(key, value)`. -/
def addValue (builder : KeyValueTreeObjectBuilder α) (key : String) (value : α) :
    KeyValueTreeObjectBuilder α :=
  builder ++ [(key, value)]

/-- The conversion `fromString<real>(sxt[i])`. -/
def realAt (cv : StrConvert α) (sxt : List String) (i : Nat) : Except GmxError α :=
  match vectorAt sxt i with
  | .ok tok => cv.fromStringReal tok
  | .error e => .error e

/-- Converts dynamic parameters from mdp format to (omega, t0, sigma)
(`convertDynamicParameters`). The builder is returned together with the
outcome, so that the keys added before a throw are visible. -/
def convertDynamicParameters (cv : StrConvert α) (builder : KeyValueTreeObjectBuilder α)
    (value : String) : KeyValueTreeObjectBuilder α × Except GmxError Unit :=
  let sxt := splitString value
  match sxt with
  | [] => (builder, .ok ())
  | sxt0 :: _ =>
    match cv.fromStringInt sxt0 with
    | .error e => (builder, .error e)
    | .ok n =>
      if n = 1 then
        if sxt.length ≠ 3 then
          (builder, .error (.invalidInput "Please specify 1 omega 0 for non-pulsed fields"))
        else
          match realAt cv sxt 1 with
          | .error e => (builder, .error e)
          | .ok v1 => (addValue builder "omega" v1, .ok ())
      else if n = 3 then
        if sxt.length ≠ 7 then
          (builder, .error (.invalidInput
            "Please specify 1 omega 0 t0 0 sigma 0 for pulsed fields"))
        else
          match realAt cv sxt 1 with
          | .error e => (builder, .error e)
          | .ok v1 =>
            match realAt cv sxt 3 with
            | .error e => (addValue builder "omega" v1, .error e)
            | .ok v3 =>
              match realAt cv sxt 5 with
              | .error e => (addValue (addValue builder "omega" v1) "t0" v3, .error e)
              | .ok v5 =>
                (addValue (addValue (addValue builder "omega" v1) "t0" v3) "sigma" v5, .ok ())
      else
        (builder, .error (.invalidInput "Incomprehensible input for electric field"))

/-- Modelled from the spec: the binding of one key of the section of an axis to
the member registered for it by `ElectricFieldData::initMdpOptions`: `E0` to
`a_`, `omega` to `omega_`, `t0` to `t0_`, `sigma` to `sigma_`. A key without
an option leaves the members as they are. -/
def ElectricFieldData.assignOption (self : ElectricFieldData α) (kv : String × α) :
    ElectricFieldData α :=
  if kv.1 = "E0" then { self with a_ := kv.2 }
  else if kv.1 = "omega" then { self with omega_ := kv.2 }
  else if kv.1 = "t0" then { self with t0_ := kv.2 }
  else if kv.1 = "sigma" then { self with sigma_ := kv.2 }
  else self

/-- Modelled from the spec: the binding of the keys of the section of an axis, in
the order of the builder. -/
def ElectricFieldData.assignOptions (self : ElectricFieldData α)
    (kvs : KeyValueTreeObjectBuilder α) : ElectricFieldData α :=
  kvs.foldl ElectricFieldData.assignOption self


/-! ### A decimal reading of tokens, for concrete inputs -/

/-- Value of a decimal digit character. -/
def digitValue (c : Char) : Option Nat :=
  if c.isDigit then some (c.toNat - 48) else none

/-- Value of a non-empty run of decimal digits. -/
def digitsValue : List Char → Option Nat
  | [] => none
  | cs => cs.foldlM (fun acc c => (digitValue c).map (fun d => 10 * acc + d)) 0

/-- An optional sign in front of the rest of a token. -/
def splitSign : List Char → Bool × List Char
  | '-' :: cs => (true, cs)
  | '+' :: cs => (false, cs)
  | cs => (false, cs)

/-- Modelled from the spec: `fromString<int>` of the string-conversion utilities on
a token `[+-]digits`; anything else, and a value outside the range of `int`,
is an input error. -/
def intFromString (str : String) : Except GmxError Int :=
  let (neg, cs) := splitSign str.data
  match digitsValue cs with
  | none => .error (.invalidInput "expected an integer")
  | some v =>
    let n : Int := if neg then -(v : Int) else (v : Int)
    if -INT_MAX - 1 ≤ n ∧ n ≤ INT_MAX then .ok n
    else .error (.invalidInput "it causes an integer overflow")

/-- Modelled from the spec: `fromString<real>` of the string-conversion utilities on
a token `[+-]digits[.digits]`, read as a rational; anything else is an input
error. -/
def realFromString (str : String) : Except GmxError ℚ :=
  let (neg, cs) := splitSign str.data
  let ip := cs.takeWhile (fun c => c ≠ '.')
  let fp := (cs.dropWhile (fun c => c ≠ '.')).drop 1
  let digits := ip ++ fp
  if cs.dropWhile (fun c => c ≠ '.') = ['.'] ∧ ip = [] then
    .error (.invalidInput "expected a number")
  else
    match digitsValue digits with
    | none => .error (.invalidInput "expected a number")
    | some v =>
      let q : ℚ := (v : ℚ) / (10 : ℚ) ^ fp.length
      .ok (if neg then -q else q)

/-- Modelled from the spec: the string conversions on plain decimal tokens, with
the reals taken in `ℚ`. -/
def decimalConvert : StrConvert ℚ :=
  { fromStringInt := intFromString, fromStringReal := realFromString }

/-! ## Broadcast -/

/-- The four local vectors `rvec a1, omega1, sigma1, t01` of
`ElectricField::broadCast`. -/
structure BroadcastVectors (α : Type) where
  a1 : Fin 3 → α
  omega1 : Fin 3 → α
  sigma1 : Fin 3 → α
  t01 : Fin 3 → α

/-- Modelled from the spec: `gmx_bcast(nbytes, buf, cr)` of the communication layer,
which is not part of this source file: after the call the buffer of every
process holds the buffer `root` of the coordinating process; the coordinating
process keeps its own buffer. -/
def gmx_bcast (master : Bool) (root buf : Fin 3 → α) : Fin 3 → α :=
  if master then buf else root

namespace ElectricField

/-- The loop of `broadCast` that loads the parameters into the local vectors:
`a1[m] = a(m); omega1[m] = omega(m); sigma1[m] = sigma(m); t01[m] = t0(m)`. -/
def loadParameters (self : ElectricField α) : BroadcastVectors α :=
  { a1 := fun m => self.a m, omega1 := fun m => self.omega m,
    sigma1 := fun m => self.sigma m, t01 := fun m => self.t0 m }

/-- The method `ElectricField::broadCast` on one process. `master` is
`MASTER(cr)`, `stack` is the content of the local vectors before they are
assigned, and `root` holds the buffers of the coordinating process at the
four calls of `gmx_bcast`. -/
def broadCast (self : ElectricField α) (master : Bool) (stack root : BroadcastVectors α) :
    Except GmxError (ElectricField α) :=
  let v := if master then self.loadParameters else stack
  let a1 := gmx_bcast master root.a1 v.a1
  let omega1 := gmx_bcast master root.omega1 v.omega1
  let t01 := gmx_bcast master root.t01 v.t01
  let sigma1 := gmx_bcast master root.sigma1 v.sigma1
  if !master then
    [0, 1, 2].foldlM (fun (s : ElectricField α) (m : Fin 3) =>
      s.setFieldTerm (m.val : Int) (a1 m) (omega1 m) (t01 m) (sigma1 m)) self
  else
    .ok self

end ElectricField


/-! ## Forces and the field file -/

/-- The members of `t_mdatoms` that `calculateForces` reads: the number of
local particles `homenr` and the charges `chargeA`. -/
structure t_mdatoms where
  homenr : Int
  chargeA : Nat → ℝ

/-- One line of the field file: the time and the field in X, Y and Z. -/
abbrev FieldLine := ℝ × ℝ × ℝ × ℝ

/-- The loop `for (int i = 0; i < homenr; ++i) f[i][m] += chargeA[i]*Ext`
after its first `count` iterations. -/
noncomputable def forceLoop (chargeA : Nat → ℝ) (Ext : ℝ) (m : Fin 3) :
    (count : Nat) → (Nat → Fin 3 → ℝ) → (Nat → Fin 3 → ℝ)
  | 0, f => f
  | i + 1, f =>
    let f1 := forceLoop chargeA Ext m i f
    fun k d => if k = i ∧ d = m then f1 k d + chargeA i * Ext else f1 k d

namespace ElectricField

/-- Prints the field components to the open field file
(`ElectricField::printComponents`): one line `t, field(XX, t), field(YY, t),
field(ZZ, t)`. -/
noncomputable def printComponents (self : ElectricField ℝ) (fpField_ : List FieldLine)
    (t : ℝ) : List FieldLine :=
  fpField_ ++ [(t, self.field 0 t, self.field 1 t, self.field 2 t)]

/-- The method `ElectricField::calculateForces`. `FIELDFAC` is the unit
constant of that name, `fpField_` the member of that name (`none` for
`nullptr`, else the lines of the open field file), `master` is `MASTER(cr)`,
`f` the force array. Returns the force array and the field file. -/
noncomputable def calculateForces (self : ElectricField ℝ) (FIELDFAC : ℝ)
    (fpField_ : Option (List FieldLine)) (master : Bool) (mdatoms : t_mdatoms)
    (f : Nat → Fin 3 → ℝ) (t : ℝ) : (Nat → Fin 3 → ℝ) × Option (List FieldLine) :=
  if self.isActive then
    let f1 := [0, 1, 2].foldl (fun (f : Nat → Fin 3 → ℝ) (m : Fin 3) =>
      let Ext := FIELDFAC * self.field m t
      if Ext ≠ 0 then forceLoop mdatoms.chargeA Ext m mdatoms.homenr.toNat f else f) f
    match fpField_ with
    | some lines =>
      if master then (f1, some (self.printComponents lines t)) else (f1, fpField_)
    | none => (f1, fpField_)
  else
    (f, fpField_)

/-- The force update in the words of the specification, without the activity
test and without the test on the field: every local particle `i` gets
`charge[i] * conversionFactor * evaluate(field[m], t)` added on every axis
`m`. -/
noncomputable def forceContribution (self : ElectricField ℝ) (conversionFactor : ℝ)
    (mdatoms : t_mdatoms) (f : Nat → Fin 3 → ℝ) (t : ℝ) : Nat → Fin 3 → ℝ :=
  fun i m =>
    if (i : Int) < mdatoms.homenr then
      f i m + mdatoms.chargeA i * conversionFactor * (self.efield_ m).evaluate t
    else f i m

end ElectricField


/-! ## Comparison -/

/-- Modelled from the spec: the approximate-equality check of `cmp_real` of the
comparison utilities, which are not part of this source file: the values are
equal iff `|x-y| <= max(absTol, relTol * max(|x|,|y|))`. -/
def equal_real [LinearOrderedField α] (i1 i2 ftol abstol : α) : Bool :=
  decide (|i1 - i2| ≤ max abstol (ftol * max |i1| |i2|))

/-- One entry of the mismatch report: the label, the index and both values. -/
structure Mismatch (α : Type) where
  s : String
  index : Int
  i1 : α
  i2 : α
  deriving DecidableEq, Repr

/-- Modelled from the spec: `cmp_real(fp, s, index, i1, i2, ftol, abstol)` of the
comparison utilities: one entry is appended to the report when the values are
not equal. -/
def cmp_real [LinearOrderedField α] (fp : List (Mismatch α)) (s : String) (index : Int)
    (i1 i2 ftol abstol : α) : List (Mismatch α) :=
  if equal_real i1 i2 ftol abstol then fp
  else fp ++ [{ s := s, index := index, i1 := i1, i2 := i2 }]

/-- The label `sprintf(buf, "inputrec->field[%d]", m)`. -/
def fieldLabel (m : Fin 3) : String :=
  "inputrec->field[" ++ toString m.val ++ "]"

namespace ElectricField

/-- The method `ElectricField::compare`, with the report `fp` returned. -/
def compare [LinearOrderedField α] (self : ElectricField α) (fp : List (Mismatch α))
    (other : ElectricField α) (reltol abstol : α) : List (Mismatch α) :=
  [0, 1, 2].foldl (fun (fp : List (Mismatch α)) (m : Fin 3) =>
    let buf := fieldLabel m
    let fp := cmp_real fp buf (-1) (self.a m) (other.a m) reltol abstol
    let fp := cmp_real fp buf (-1) (self.omega m) (other.omega m) reltol abstol
    let fp := cmp_real fp buf (-1) (self.t0 m) (other.t0 m) reltol abstol
    cmp_real fp buf (-1) (self.sigma m) (other.sigma m) reltol abstol) fp

/-- The comparisons of one axis in the words of the specification: for each
of amplitude, angularFrequency, pulseCenter, pulseWidth, the axis with the
values of that parameter on that axis in the two models. -/
def comparisonPairsAxis (A B : ElectricField α) (m : Fin 3) : List (Fin 3 × α × α) :=
  [(m, (A.efield_ m).a_, (B.efield_ m).a_),
   (m, (A.efield_ m).omega_, (B.efield_ m).omega_),
   (m, (A.efield_ m).t0_, (B.efield_ m).t0_),
   (m, (A.efield_ m).sigma_, (B.efield_ m).sigma_)]

/-- The comparisons in the words of the specification: those of the axes X, Y
and Z. -/
def comparisonPairs (A B : ElectricField α) : List (Fin 3 × α × α) :=
  comparisonPairsAxis A B 0 ++ comparisonPairsAxis A B 1 ++ comparisonPairsAxis A B 2

/-- The report entry of a comparison that fails, and nothing for one that
passes. -/
def mismatchOf [LinearOrderedField α] (reltol abstol : α) (p : Fin 3 × α × α) :
    Option (Mismatch α) :=
  if equal_real p.2.1 p.2.2 reltol abstol then none
  else some { s := fieldLabel p.1, index := -1, i1 := p.2.1, i2 := p.2.2 }

end ElectricField


/-! ## The operations that change a model -/

/-- The operations that change the parameters of a model: `setFieldTerm`,
`doTpxIO` in read mode on the record of three axes, `broadCast`, and the
binding of the keys that `convertDynamicParameters` produces for the axis
`dim` from the mdp value `value`. -/
inductive FieldOp (α : Type) where
  | setFieldTerm (dim : Int) (a omega t0 sigma : α)
  | readTpx (rx ry rz : TpxAxisRecord α)
  | broadCast (master : Bool) (stack root : BroadcastVectors α)
  | bindDynamic (dim : Fin 3) (value : String)

namespace FieldOp

/-- Runs one operation on a model. -/
def run [Zero α] [DecidableEq α] (cv : StrConvert α) (op : FieldOp α)
    (m : ElectricField α) : Except GmxError (ElectricField α) :=
  match op with
  | .setFieldTerm dim a omega t0 sigma => m.setFieldTerm dim a omega t0 sigma
  | .readTpx rx ry rz =>
    match ElectricField.doTpxIO m (rx.encode ++ (ry.encode ++ (rz.encode ++ []))) true with
    | .ok (m1, _) => .ok m1
    | .error e => .error e
  | .broadCast master stack root => m.broadCast master stack root
  | .bindDynamic dim value =>
    match convertDynamicParameters cv [] value with
    | (kvs, .ok _) =>
      .ok { efield_ := fun k => if k = dim then (m.efield_ k).assignOptions kvs
                                else m.efield_ k }
    | (_, .error e) => .error e

/-- The pulse widths that an operation hands to the model are not negative,
and the record of a read carries the values its counts declare. -/
def PulseWidthsNonneg [Zero α] [LE α] (cv : StrConvert α) (op : FieldOp α) : Prop :=
  match op with
  | .setFieldTerm _ _ _ _ sigma => 0 ≤ sigma
  | .readTpx rx ry rz =>
    (rx.WellFormed ∧ rx.PhiFits ∧ ∀ v ∈ rx.phit, 0 ≤ v) ∧
    (ry.WellFormed ∧ ry.PhiFits ∧ ∀ v ∈ ry.phit, 0 ≤ v) ∧
    (rz.WellFormed ∧ rz.PhiFits ∧ ∀ v ∈ rz.phit, 0 ≤ v)
  | .broadCast _ _ root => ∀ k, 0 ≤ root.sigma1 k
  | .bindDynamic _ value =>
    ∀ v, ("sigma", v) ∈ (convertDynamicParameters cv [] value).1 → 0 ≤ v

end FieldOp

/-- Runs a sequence of operations on a model, in order, up to the first one
that fails. -/
def runOps [Zero α] [DecidableEq α] (cv : StrConvert α) (ops : List (FieldOp α))
    (m : ElectricField α) : Except GmxError (ElectricField α) :=
  ops.foldlM (fun m op => op.run cv m) m


end gmx

/-! ## Theorems -/

namespace gmx

open ElectricField

/-- C4. Pulse peak and symmetry: with a positive pulse width, the field at the
pulse centre is the amplitude, and the field at equal offsets before and after
the pulse centre is the same. -/
theorem evaluate_pulse_peak_and_symmetry (a omega t0 sigma d : ℝ) (hsigma : sigma > 0) :
    ElectricFieldData.evaluate ⟨a, omega, t0, sigma⟩ t0 = a ∧
    ElectricFieldData.evaluate ⟨a, omega, t0, sigma⟩ (t0 + d)
      = ElectricFieldData.evaluate ⟨a, omega, t0, sigma⟩ (t0 - d) := by
  constructor
  · simp [ElectricFieldData.evaluate, ElectricFieldData.square, hsigma]
  · simp only [ElectricFieldData.evaluate, ElectricFieldData.square, hsigma, if_true]
    have h1 : t0 + d - t0 = d := by ring
    have h2 : t0 - d - t0 = -d := by ring
    rw [h1, h2]
    have h3 : omega * -d = -(omega * d) := by ring
    have h4 : -d * -d = d * d := by ring
    rw [h3, Real.cos_neg, h4]

/-- Witness of C4 at amplitude 2, frequency 3, pulse centre 5, width 1 and
offset 7. -/
theorem evaluate_pulse_peak_and_symmetry_witness :
    (1 : ℝ) > 0 ∧
    ElectricFieldData.evaluate ⟨2, 3, 5, 1⟩ 5 = 2 ∧
    ElectricFieldData.evaluate ⟨2, 3, 5, 1⟩ (5 + 7)
      = ElectricFieldData.evaluate ⟨2, 3, 5, 1⟩ (5 - 7) :=
  ⟨by norm_num, evaluate_pulse_peak_and_symmetry 2 3 5 1 7 (by norm_num)⟩

/-- C5. Pure-oscillation path: with pulse width zero the field at time `t` is
`a * cos (omega * t)`, whatever the pulse centre; with frequency zero as well it
is the constant `a`. -/
theorem evaluate_pure_oscillation (term : ElectricFieldData ℝ) (t : ℝ)
    (hsigma : term.sigma_ = 0) :
    term.evaluate t = term.a_ * Real.cos (term.omega_ * t) ∧
    (∀ t0 : ℝ, ElectricFieldData.evaluate { term with t0_ := t0 } t = term.evaluate t) ∧
    (term.omega_ = 0 → term.evaluate t = term.a_) := by
  have h : term.evaluate t = term.a_ * Real.cos (term.omega_ * t) := by
    simp [ElectricFieldData.evaluate, hsigma]
  refine ⟨h, ?_, ?_⟩
  · intro t0
    simp [ElectricFieldData.evaluate, hsigma]
  · intro homega
    rw [h, homega]
    simp

/-- Witness of C5 at amplitude 2, frequency 3, pulse centre 5 and time 7. -/
theorem evaluate_pure_oscillation_witness :
    ElectricFieldData.evaluate ⟨2, 3, 5, 0⟩ 7 = 2 * Real.cos (3 * 7) :=
  (evaluate_pure_oscillation ⟨2, 3, 5, 0⟩ 7 rfl).1

/-- C6. Activity test: `isActive` is false exactly when the three amplitudes
are zero; the other parameters play no part, so two models with the same
amplitudes have the same activity. -/
theorem isActive_false_iff {α : Type} [Zero α] [DecidableEq α] (m : ElectricField α) :
    (m.isActive = false ↔ m.a 0 = 0 ∧ m.a 1 = 0 ∧ m.a 2 = 0) ∧
    (∀ m2 : ElectricField α, (∀ j, m2.a j = m.a j) → m2.isActive = m.isActive) := by
  constructor
  · simp [isActive, a, not_or]
  · intro m2 h
    have h0 := h 0
    have h1 := h 1
    have h2 := h 2
    simp only [a] at h0 h1 h2
    simp [isActive, h0, h1, h2]

/-- The conversion on an empty token list. -/
theorem convertStaticParameters_nil {α : Type} [Zero α] (cv : StrConvert α) (value : String)
    (hsplit : splitString value = []) :
    convertStaticParameters cv value = .ok 0 := by
  simp [convertStaticParameters, hsplit]

/-- The conversion on a token list whose count converts to `n`. -/
theorem convertStaticParameters_cons {α : Type} [Zero α] (cv : StrConvert α) (value : String)
    (sx0 : String) (rest : List String) (n : Int)
    (hsplit : splitString value = sx0 :: rest) (hn : cv.fromStringInt sx0 = .ok n) :
    convertStaticParameters cv value =
      if n ≤ 0 then .ok 0
      else if n ≠ 1 then
        .error (.invalidInput "Only one electric field term supported for each dimension")
      else if rest.length + 1 ≠ 3 then
        .error (.invalidInput "Expected exactly one electric field amplitude value")
      else
        (vectorAt (sx0 :: rest) 1).bind cv.fromStringReal := by
  simp only [convertStaticParameters, hsplit, hn, List.length_cons]
  cases vectorAt (sx0 :: rest) 1 <;> rfl

/-- C7, as stated, fails: the two-token input "1 2.5" is not accepted. -/
theorem convertStaticParameters_two_tokens_rejected :
    convertStaticParameters decimalConvert "1 2.5"
      = .error (.invalidInput "Expected exactly one electric field amplitude value") := by
  rfl

/-- C7, amended. The two-token input "1 2.5" is rejected with the input error
for a wrong number of amplitude values, and the three-token input "1 2.5 0" is
accepted and yields the value of the token "2.5". -/
theorem convertStaticParameters_three_token_form {α : Type} [Zero α] (cv : StrConvert α)
    (v : α) (hcount : cv.fromStringInt "1" = .ok 1) (hvalue : cv.fromStringReal "2.5" = .ok v) :
    convertStaticParameters cv "1 2.5"
      = .error (.invalidInput "Expected exactly one electric field amplitude value") ∧
    convertStaticParameters cv "1 2.5 0" = .ok v := by
  have h2 : splitString "1 2.5" = ["1", "2.5"] := by decide
  have h3 : splitString "1 2.5 0" = ["1", "2.5", "0"] := by decide
  constructor
  · rw [convertStaticParameters_cons cv _ _ _ 1 h2 hcount]
    simp
  · rw [convertStaticParameters_cons cv _ _ _ 1 h3 hcount]
    simp [vectorAt, Except.bind, hvalue]

/-- Witness of the amended C7 with the decimal reading of tokens: the amplitude
is 2.5. -/
theorem convertStaticParameters_three_token_form_witness :
    convertStaticParameters decimalConvert "1 2.5"
      = .error (.invalidInput "Expected exactly one electric field amplitude value") ∧
    convertStaticParameters decimalConvert "1 2.5 0" = .ok (2.5 : ℚ) :=
  convertStaticParameters_three_token_form decimalConvert 2.5 (by rfl)
    (by simp [decimalConvert, realFromString, splitSign, digitsValue, digitValue]; norm_num)

/-- C8, as stated, fails: "1 abc 0" has the count 1 and exactly three tokens,
and the conversion fails on its second token. -/
theorem convertStaticParameters_three_tokens_rejected :
    convertStaticParameters decimalConvert "1 abc 0"
      = .error (.invalidInput "expected a number") := by
  rfl

/-- C8, amended. Single static term: when the first token is the count 1, the
conversion succeeds with the amplitude `v` if and only if the list has exactly
three tokens and the second token converts to `v`, whatever the third token
is; on any other number of tokens it fails with the input error for a wrong
number of amplitude values; on three tokens whose second token does not
convert it fails with the error of that conversion. -/
theorem convertStaticParameters_single_term_iff {α : Type} [Zero α] (cv : StrConvert α)
    (value : String) (sx0 : String) (rest : List String)
    (hsplit : splitString value = sx0 :: rest) (hcount : cv.fromStringInt sx0 = .ok 1) :
    (∀ v, convertStaticParameters cv value = .ok v ↔
      ∃ sx1 sx2, rest = [sx1, sx2] ∧ cv.fromStringReal sx1 = .ok v) ∧
    ((sx0 :: rest).length ≠ 3 →
      convertStaticParameters cv value
        = .error (.invalidInput "Expected exactly one electric field amplitude value")) ∧
    (∀ sx1 sx2, rest = [sx1, sx2] →
      convertStaticParameters cv value = cv.fromStringReal sx1) := by
  rw [convertStaticParameters_cons cv value sx0 rest 1 hsplit hcount]
  have h3 : ∀ sx1 sx2, rest = [sx1, sx2] →
      (if (1 : Int) ≤ 0 then (Except.ok 0 : Except GmxError α)
       else if (1 : Int) ≠ 1 then
        .error (.invalidInput "Only one electric field term supported for each dimension")
       else if rest.length + 1 ≠ 3 then
        .error (.invalidInput "Expected exactly one electric field amplitude value")
       else (vectorAt (sx0 :: rest) 1).bind cv.fromStringReal) = cv.fromStringReal sx1 := by
    intro sx1 sx2 hrest
    subst hrest
    simp [vectorAt, Except.bind]
  refine ⟨?_, ?_, h3⟩
  · intro v
    constructor
    · intro hv
      by_cases hlen : rest.length = 2
      · obtain ⟨sx1, sx2, hrest⟩ := List.length_eq_two.mp hlen
        refine ⟨sx1, sx2, hrest, ?_⟩
        rw [h3 sx1 sx2 hrest] at hv
        exact hv
      · simp [hlen] at hv
    · rintro ⟨sx1, sx2, hrest, hv⟩
      rw [h3 sx1 sx2 hrest]
      exact hv
  · intro hlen
    simp only [List.length_cons] at hlen
    simp [hlen]

/-- Witness of the amended C8 with the decimal reading of tokens: "1 2.5 0"
yields 2.5 and the four-token input "1 2.5 0 0" is an input error. -/
theorem convertStaticParameters_single_term_iff_witness :
    convertStaticParameters decimalConvert "1 2.5 0" = .ok (2.5 : ℚ) ∧
    convertStaticParameters decimalConvert "1 2.5 0 0"
      = .error (.invalidInput "Expected exactly one electric field amplitude value") :=
  ⟨((convertStaticParameters_single_term_iff decimalConvert "1 2.5 0" "1" ["2.5", "0"]
      (by decide) (by rfl)).1 2.5).mpr ⟨"2.5", "0", rfl,
      (by simp [decimalConvert, realFromString, splitSign, digitsValue, digitValue];
          norm_num)⟩,
   (convertStaticParameters_single_term_iff decimalConvert "1 2.5 0 0" "1"
      ["2.5", "0", "0"] (by decide) (by rfl)).2.1 (by decide)⟩

/-- C9, as stated, fails: the negative count of "-1 2.5 0" raises no error;
the conversion returns amplitude 0. -/
theorem convertStaticParameters_negative_count_accepted :
    convertStaticParameters decimalConvert "-1 2.5 0" = .ok 0 := by
  rfl

/-- C9, amended. A count above 1 fails with the input error for more than one
term; a negative count is treated like the count 0, so the conversion returns
amplitude 0 and raises no error. -/
theorem convertStaticParameters_unsupported_count {α : Type} [Zero α] (cv : StrConvert α)
    (value : String) (sx0 : String) (rest : List String) (n : Int)
    (hsplit : splitString value = sx0 :: rest) (hcount : cv.fromStringInt sx0 = .ok n) :
    (1 < n → convertStaticParameters cv value
      = .error (.invalidInput "Only one electric field term supported for each dimension")) ∧
    (n < 0 → convertStaticParameters cv value = .ok 0) := by
  rw [convertStaticParameters_cons cv value sx0 rest n hsplit hcount]
  constructor
  · intro h
    have h1 : ¬ n ≤ 0 := by omega
    have h2 : n ≠ 1 := by omega
    simp [h1, h2]
  · intro h
    have h1 : n ≤ 0 := by omega
    simp [h1]

/-- Witness of the amended C9: the count 2 of "2 2.5 0" is an input error and
the count -3 of "-3 2.5 0" gives amplitude 0. -/
theorem convertStaticParameters_unsupported_count_witness :
    convertStaticParameters decimalConvert "2 2.5 0"
      = .error (.invalidInput "Only one electric field term supported for each dimension") ∧
    convertStaticParameters decimalConvert "-3 2.5 0" = .ok 0 :=
  ⟨(convertStaticParameters_unsupported_count decimalConvert "2 2.5 0" "2" ["2.5", "0"] 2
      (by decide) (by rfl)).1 (by decide),
   (convertStaticParameters_unsupported_count decimalConvert "-3 2.5 0" "-3" ["2.5", "0"] (-3)
      (by decide) (by rfl)).2 (by decide)⟩

/-- C10. Inactive axis: a static input without tokens, or whose first token is
the count 0 whatever follows it, converts to amplitude 0 without error. -/
theorem convertStaticParameters_inactive {α : Type} [Zero α] (cv : StrConvert α)
    (value : String)
    (h : splitString value = [] ∨
      ∃ sx0 rest, splitString value = sx0 :: rest ∧ cv.fromStringInt sx0 = .ok 0) :
    convertStaticParameters cv value = .ok 0 := by
  rcases h with h | ⟨sx0, rest, hsplit, hcount⟩
  · exact convertStaticParameters_nil cv value h
  · rw [convertStaticParameters_cons cv value sx0 rest 0 hsplit hcount]
    simp

/-- Witness of C10 on the input "0 2.5 7 8": the tokens after the count 0 are
ignored. -/
theorem convertStaticParameters_inactive_witness :
    convertStaticParameters decimalConvert "0 2.5 7 8" = .ok 0 :=
  convertStaticParameters_inactive decimalConvert "0 2.5 7 8"
    (Or.inr ⟨"0", ["2.5", "7", "8"], by decide, by rfl⟩)

/-- Writing one axis appends the layout of that axis and leaves the model
unchanged. -/
theorem doTpxIOAxis_write {α : Type} [Zero α] [DecidableEq α] (m : ElectricField α)
    (fio : t_fileio α) (j : Fin 3) :
    doTpxIOAxis m fio false j = .ok (m, fio ++ writeLayoutAxis (m.efield_ j)) := by
  by_cases h : (m.efield_ j).omega_ ≠ 0 ∨ (m.efield_ j).sigma_ ≠ 0 ∨ (m.efield_ j).t0_ ≠ 0
  · have h2 : (m.efield_ j).omega_ ≠ 0 ∨ (m.efield_ j).t0_ ≠ 0 ∨ (m.efield_ j).sigma_ ≠ 0 := by
      tauto
    simp [doTpxIOAxis, writeLayoutAxis, omega, sigma, t0, a, h, h2, gmx_fio_do_int,
      gmx_fio_ndo_real, gmx_fio_ndo_real_loop, gmx_fio_do_real, bind, Except.bind, pure,
      Except.pure]
  · have h2 : ¬ ((m.efield_ j).omega_ ≠ 0 ∨ (m.efield_ j).t0_ ≠ 0 ∨ (m.efield_ j).sigma_ ≠ 0) := by
      tauto
    simp [doTpxIOAxis, writeLayoutAxis, omega, sigma, t0, a, h, h2, gmx_fio_do_int,
      gmx_fio_ndo_real, gmx_fio_ndo_real_loop, gmx_fio_do_real, bind, Except.bind, pure,
      Except.pure]

/-- The loop of `doTpxIO` over the three axes, unrolled. -/
theorem doTpxIO_unroll {α : Type} [Zero α] [DecidableEq α] (m : ElectricField α)
    (fio : t_fileio α) (bRead : Bool) :
    doTpxIO m fio bRead =
      (doTpxIOAxis m fio bRead 0).bind (fun st0 =>
        (doTpxIOAxis st0.1 st0.2 bRead 1).bind (fun st1 =>
          doTpxIOAxis st1.1 st1.2 bRead 2)) := by
  simp only [List.foldlM, bind, doTpxIO]
  cases doTpxIOAxis m fio bRead 0 with
  | error e => rfl
  | ok st0 =>
    simp only [Except.bind]
    cases doTpxIOAxis st0.1 st0.2 bRead 1 with
    | error e => rfl
    | ok st1 =>
      simp only [Except.bind]
      cases doTpxIOAxis st1.1 st1.2 bRead 2 <;> rfl

/-- Writing a model appends the layouts of the axes X, Y, Z in this order and
leaves the model unchanged. -/
theorem doTpxIO_write {α : Type} [Zero α] [DecidableEq α] (m : ElectricField α)
    (fio : t_fileio α) :
    doTpxIO m fio false
      = .ok (m, fio ++ (writeLayoutAxis (m.efield_ 0) ++ writeLayoutAxis (m.efield_ 1)
                ++ writeLayoutAxis (m.efield_ 2))) := by
  rw [doTpxIO_unroll, doTpxIOAxis_write]
  simp only [Except.bind]
  rw [doTpxIOAxis_write]
  simp only [Except.bind]
  rw [doTpxIOAxis_write]
  simp only [List.append_assoc]

/-- C3. Write layout: writing a model appends, for the axes X, Y, Z in this
order, the integer 1, the integer `nt` (1 iff angularFrequency, pulseCenter or
pulseWidth is nonzero), the reals amplitude and pulseCenter, and the reals
angularFrequency and pulseWidth exactly when `nt = 1`; nothing else is
appended and the model is unchanged. -/
theorem doTpxIO_write_layout {α : Type} [Zero α] [DecidableEq α] (m : ElectricField α)
    (fio : t_fileio α) :
    doTpxIO m fio false
      = .ok (m, fio ++ (writeLayoutAxis (m.efield_ 0) ++ writeLayoutAxis (m.efield_ 1)
                ++ writeLayoutAxis (m.efield_ 2))) :=
  doTpxIO_write m fio

/-- Reading the values `vals` into the slots `i`, `i + 1`, ... of a buffer
that has room for them stores them there and consumes them from the record. -/
theorem gmx_fio_ndo_real_loop_read {α : Type} (vals : List α) :
    ∀ (i : Nat) (item : List α) (rest : t_fileio α), i + vals.length ≤ item.length →
      gmx_fio_ndo_real_loop true vals.length i item (vals.map TpxItem.real ++ rest)
        = .ok (item.take i ++ vals ++ item.drop (i + vals.length), rest) := by
  induction vals with
  | nil =>
    intro i item rest _
    simp [gmx_fio_ndo_real_loop]
  | cons v vs ih =>
    intro i item rest hle
    simp only [List.length_cons] at hle
    have hi : i < item.length := by omega
    simp only [List.length_cons, List.map_cons, List.cons_append, gmx_fio_ndo_real_loop,
      gmx_fio_do_real, if_true, hi]
    rw [ih (i + 1) (item.set i v) rest (by simp; omega)]
    have h1 : List.drop (i + 1 + vs.length) (item.set i v)
        = List.drop (i + (vs.length + 1)) item := by
      rw [List.drop_set_of_lt v item (by omega)]
      congr 1
      omega
    have h2 : List.take (i + 1) (item.set i v) = List.take i item ++ [v] := by
      have hlen : (List.take i item).length = i := by
        rw [List.length_take]
        omega
      rw [List.set_eq_take_append_cons_drop, if_pos hi]
      have h3 : List.take i item ++ v :: List.drop (i + 1) item
          = (List.take i item ++ [v]) ++ List.drop (i + 1) item := by simp
      rw [h3]
      exact List.take_left' (by simp [hlen])
    rw [h1, h2]
    simp

/-- Reading `n` values into a buffer that has room for them: the values take
the first slots and the other slots keep their content. -/
theorem gmx_fio_ndo_real_read {α : Type} (vals item : List α) (rest : t_fileio α) (n : Int)
    (hn : n.toNat = vals.length) (hle : vals.length ≤ item.length) :
    gmx_fio_ndo_real (vals.map TpxItem.real ++ rest) true item n
      = .ok (vals ++ item.drop vals.length, rest) := by
  have h := gmx_fio_ndo_real_loop_read vals 0 item rest (by omega)
  simp only [List.take_zero, List.nil_append, Nat.zero_add] at h
  simp only [gmx_fio_ndo_real, hn, h]

/-- The first slot of a buffer of `k > 0` zeros after reading `vals` into it:
the first value read, or zero when nothing was read. -/
theorem vectorFront_read {α : Type} [Zero α] (vals : List α) (k : Nat) (hk : 0 < k) :
    vectorFront (vals ++ (List.replicate k (0 : α)).drop vals.length)
      = .ok (vals.head?.getD 0) := by
  cases vals with
  | nil =>
    obtain ⟨k1, rfl⟩ := Nat.exists_eq_succ_of_ne_zero (Nat.pos_iff_ne_zero.mp hk)
    simp [vectorFront, List.replicate_succ]
  | cons v vs => simp [vectorFront]

/-- Setting the term of an axis: the range check passes and only that axis
changes. -/
theorem setFieldTerm_axis {α : Type} (p : ElectricField α) (j : Fin 3) (a omega t0 sigma : α) :
    p.setFieldTerm (j.val : Int) a omega t0 sigma
      = .ok { efield_ := fun m =>
                if m = j then { a_ := a, omega_ := omega, t0_ := t0, sigma_ := sigma }
                else p.efield_ m } := by
  have h1 : (0 : Int) ≤ (j.val : Int) ∧ (j.val : Int) < (DIM : Int) := by
    have := j.isLt
    simp only [DIM]
    omega
  simp only [setFieldTerm, h1, and_self, if_true, ElectricFieldData.setField]
  congr 2
  funext m
  have h2 : ((m.val : Int) = (j.val : Int)) ↔ m = j := by
    rw [Fin.ext_iff]
    omega
  simp only [h2]

/-- Reading one well-formed axis record whose pulseCenter values fit their
buffer: an axis with `n = 0` is skipped, an axis with `n > 0` that declares
more than one static or dynamic term is fatal, and any other axis has its four
parameters set from the first slot of each array. -/
theorem doTpxIOAxis_read {α : Type} [Zero α] [DecidableEq α] (p : ElectricField α)
    (r : TpxAxisRecord α) (rest : t_fileio α) (j : Fin 3)
    (hwf : r.WellFormed) (hfit : r.PhiFits) :
    doTpxIOAxis p (r.encode ++ rest) true j =
      if r.n > 0 then
        if r.n > 1 ∨ r.nt > 1 then .error (.fatal moreThanOneTermMsg)
        else .ok ({ efield_ := fun m =>
                      if m = j then
                        { a_ := r.aa.head?.getD 0, omega_ := r.at_.head?.getD 0,
                          t0_ := r.phi.head?.getD 0, sigma_ := r.phit.head?.getD 0 }
                      else p.efield_ m }, rest)
      else .ok (p, rest) := by
  obtain ⟨hn0, hnmax, hnt0, hntmax, haa, hphi, hat, hphit⟩ := hwf
  simp only [TpxAxisRecord.PhiFits] at hfit
  simp only [INT_MAX] at hnmax hntmax
  have hs : r.encode ++ rest = TpxItem.int r.n :: TpxItem.int r.nt ::
      (r.aa.map TpxItem.real ++ (r.phi.map TpxItem.real ++
        (r.at_.map TpxItem.real ++ (r.phit.map TpxItem.real ++ rest)))) := by
    simp [TpxAxisRecord.encode]
  have hlen1 : (List.replicate (r.n + 1).toNat (0 : α)).length = (r.n + 1).toNat := by simp
  have hlen2 : (List.replicate (r.nt + 1).toNat (0 : α)).length = (r.nt + 1).toNat := by simp
  have e1 := gmx_fio_ndo_real_read r.aa (List.replicate (r.n + 1).toNat 0)
    (r.phi.map TpxItem.real ++ (r.at_.map TpxItem.real ++ (r.phit.map TpxItem.real ++ rest)))
    r.n haa.symm (by rw [hlen1]; omega)
  have e2 := gmx_fio_ndo_real_read r.phi (List.replicate (r.nt + 1).toNat 0)
    (r.at_.map TpxItem.real ++ (r.phit.map TpxItem.real ++ rest))
    r.n hphi.symm (by rw [hlen2]; omega)
  have e3 := gmx_fio_ndo_real_read r.at_ (List.replicate (r.nt + 1).toNat 0)
    (r.phit.map TpxItem.real ++ rest) r.nt hat.symm (by rw [hlen2]; omega)
  have e4 := gmx_fio_ndo_real_read r.phit (List.replicate (r.nt + 1).toNat 0)
    rest r.nt hphit.symm (by rw [hlen2]; omega)
  have b1 : r.n + 1 ≤ 2147483647 := by omega
  have b2 : r.nt + 1 ≤ 2147483647 := by omega
  have b3 : ¬ (r.n + 1 < 0) := by omega
  have b4 : ¬ (r.nt + 1 < 0) := by omega
  rw [hs]
  simp only [doTpxIOAxis, gmx_fio_do_int, intSucc, vectorResize, INT_MAX, bind, Except.bind,
    pure, Except.pure, b1, b2, b3, b4, if_true, if_false, Bool.not_true, Bool.false_eq_true,
    true_and, e1, e2, e3, e4]
  have f1 := vectorFront_read r.aa (r.n + 1).toNat (by omega)
  have f2 := vectorFront_read r.at_ (r.nt + 1).toNat (by omega)
  have f3 := vectorFront_read r.phi (r.nt + 1).toNat (by omega)
  have f4 := vectorFront_read r.phit (r.nt + 1).toNat (by omega)
  simp only [f1, f2, f3, f4, setFieldTerm_axis]

/-- Reading back the layout written for a term sets the axis to that term. -/
theorem doTpxIOAxis_read_written {α : Type} [Zero α] [DecidableEq α] (p : ElectricField α)
    (term : ElectricFieldData α) (rest : t_fileio α) (j : Fin 3) :
    doTpxIOAxis p (writeLayoutAxis term ++ rest) true j
      = .ok ({ efield_ := fun m => if m = j then term else p.efield_ m }, rest) := by
  by_cases h : term.omega_ ≠ 0 ∨ term.t0_ ≠ 0 ∨ term.sigma_ ≠ 0
  · have hr := doTpxIOAxis_read p
      ⟨1, 1, [term.a_], [term.t0_], [term.omega_], [term.sigma_]⟩ rest j
      (by simp [TpxAxisRecord.WellFormed, INT_MAX]) (by simp [TpxAxisRecord.PhiFits])
    have he : writeLayoutAxis term
        = TpxAxisRecord.encode ⟨1, 1, [term.a_], [term.t0_], [term.omega_], [term.sigma_]⟩ := by
      simp [writeLayoutAxis, TpxAxisRecord.encode, h]
    rw [he, hr]
    simp
  · have hr := doTpxIOAxis_read p
      ⟨1, 0, [term.a_], [term.t0_], [], []⟩ rest j
      (by simp [TpxAxisRecord.WellFormed, INT_MAX]) (by simp [TpxAxisRecord.PhiFits])
    have he : writeLayoutAxis term
        = TpxAxisRecord.encode ⟨1, 0, [term.a_], [term.t0_], [], []⟩ := by
      simp [writeLayoutAxis, TpxAxisRecord.encode, h]
    rw [he, hr]
    simp only [not_or, not_not] at h
    obtain ⟨h1, h2, h3⟩ := h
    have ht : term = { a_ := term.a_, omega_ := 0, t0_ := term.t0_, sigma_ := 0 } := by
      cases term
      simp_all
    simp
    funext m
    split
    · exact ht.symm
    · rfl

/-- Reading what was written: the reader ends with the written model, whatever
model it started from. -/
theorem doTpxIO_read_written {α : Type} [Zero α] [DecidableEq α] (m p : ElectricField α)
    (rest : t_fileio α) :
    doTpxIO p ((writeLayoutAxis (m.efield_ 0) ++ writeLayoutAxis (m.efield_ 1)
                ++ writeLayoutAxis (m.efield_ 2)) ++ rest) true = .ok (m, rest) := by
  rw [doTpxIO_unroll]
  simp only [List.append_assoc]
  rw [doTpxIOAxis_read_written]
  simp only [Except.bind]
  rw [doTpxIOAxis_read_written]
  simp only [Except.bind]
  rw [doTpxIOAxis_read_written]
  congr 2
  cases m with
  | mk f =>
    congr 1
    funext k
    fin_cases k <;> simp

/-- C1. Codec round trip: writing any model `m` succeeds, and reading the
record it produced into any prior model `p` succeeds and leaves the reader
with `m`, all four parameters of all three axes; this includes the axes
written with `nt = 0`. -/
theorem doTpxIO_round_trip {α : Type} [Zero α] [DecidableEq α] (m p : ElectricField α) :
    ∃ s : t_fileio α, doTpxIO m [] false = .ok (m, s) ∧
      doTpxIO p s true = .ok (m, []) ∧
      ∀ rest, doTpxIO p (s ++ rest) true = .ok (m, rest) := by
  refine ⟨_, doTpxIO_write m [], ?_, ?_⟩
  · have h := doTpxIO_read_written m p []
    simpa using h
  · intro rest
    have h := doTpxIO_read_written m p rest
    simpa using h

/-- Reading one well-formed axis record whose pulseCenter values fit their
buffer is fatal when the record is rejected by the guard and returns
otherwise. -/
theorem doTpxIOAxis_read_cases {α : Type} [Zero α] [DecidableEq α] (p : ElectricField α)
    (r : TpxAxisRecord α) (rest : t_fileio α) (j : Fin 3)
    (hwf : r.WellFormed) (hfit : r.PhiFits) :
    (r.Rejected → doTpxIOAxis p (r.encode ++ rest) true j
      = .error (.fatal moreThanOneTermMsg)) ∧
    (¬ r.Rejected → ∃ p1, doTpxIOAxis p (r.encode ++ rest) true j = .ok (p1, rest)) := by
  rw [doTpxIOAxis_read p r rest j hwf hfit]
  simp only [TpxAxisRecord.Rejected]
  constructor
  · rintro ⟨h1, h2⟩
    simp [h1, h2]
  · intro h
    by_cases h1 : r.n > 0
    · have h2 : ¬ (r.n > 1 ∨ r.nt > 1) := fun h3 => h ⟨h1, h3⟩
      simp only [h1, h2, if_true, if_false]
      exact ⟨_, rfl⟩
    · simp only [h1, if_false]
      exact ⟨_, rfl⟩

/-- Reading three well-formed axis records whose pulseCenter values fit their
buffers is fatal exactly when one of them is rejected by the guard. -/
theorem doTpxIO_read_fatal {α : Type} [Zero α] [DecidableEq α] (p : ElectricField α)
    (rx ry rz : TpxAxisRecord α) (rest : t_fileio α)
    (hx : rx.WellFormed) (hy : ry.WellFormed) (hz : rz.WellFormed)
    (fx : rx.PhiFits) (fy : ry.PhiFits) (fz : rz.PhiFits) :
    doTpxIO p (rx.encode ++ (ry.encode ++ (rz.encode ++ rest))) true
        = .error (.fatal moreThanOneTermMsg)
      ↔ rx.Rejected ∨ ry.Rejected ∨ rz.Rejected := by
  rw [doTpxIO_unroll]
  by_cases h0 : rx.Rejected
  · rw [(doTpxIOAxis_read_cases p rx _ 0 hx fx).1 h0]
    simp [Except.bind, h0]
  · obtain ⟨p1, e1⟩ := (doTpxIOAxis_read_cases p rx (ry.encode ++ (rz.encode ++ rest)) 0 hx fx).2 h0
    rw [e1]
    simp only [Except.bind]
    by_cases h1 : ry.Rejected
    · rw [(doTpxIOAxis_read_cases p1 ry _ 1 hy fy).1 h1]
      simp [h1]
    · obtain ⟨p2, e2⟩ := (doTpxIOAxis_read_cases p1 ry (rz.encode ++ rest) 1 hy fy).2 h1
      rw [e2]
      simp only [Except.bind]
      by_cases h2 : rz.Rejected
      · rw [(doTpxIOAxis_read_cases p2 rz _ 2 hz fz).1 h2]
        simp [h2]
      · obtain ⟨p3, e3⟩ := (doTpxIOAxis_read_cases p2 rz rest 2 hz fz).2 h2
        rw [e3]
        simp [h0, h1, h2]

/-- C2, as stated, fails: a record whose axis X declares `n = 0` and `nt = 2`
is read without error, and the model is left as it was. -/
theorem doTpxIO_read_dynamic_count_two_accepted :
    doTpxIO (ElectricField.init : ElectricField ℚ)
      [.int 0, .int 2, .real 1, .real 2, .real 3, .real 4, .int 0, .int 0, .int 0, .int 0] true
      = .ok (ElectricField.init, []) := by
  rfl

/-- C2, amended. For a record of three axes that each carry the values their
counts declare, with the pulseCenter values within their buffer, reading is
fatal with the more-than-one-term error exactly when some axis has `n > 0`
and declares `n > 1` or `nt > 1`; an axis with `n = 0` is accepted whatever
its `nt`. -/
theorem doTpxIO_read_rejects_iff {α : Type} [Zero α] [DecidableEq α] (p : ElectricField α)
    (rx ry rz : TpxAxisRecord α) (rest : t_fileio α)
    (hx : rx.WellFormed) (hy : ry.WellFormed) (hz : rz.WellFormed)
    (fx : rx.PhiFits) (fy : ry.PhiFits) (fz : rz.PhiFits) :
    doTpxIO p (rx.encode ++ (ry.encode ++ (rz.encode ++ rest))) true
        = .error (.fatal moreThanOneTermMsg)
      ↔ (rx.n > 0 ∧ (rx.n > 1 ∨ rx.nt > 1)) ∨ (ry.n > 0 ∧ (ry.n > 1 ∨ ry.nt > 1))
        ∨ (rz.n > 0 ∧ (rz.n > 1 ∨ rz.nt > 1)) :=
  doTpxIO_read_fatal p rx ry rz rest hx hy hz fx fy fz

/-- Witness of the amended C2: axis X declares `n = 0, nt = 2` and is
accepted, axis Y declares `n = 1, nt = 2` and makes the read fatal. -/
theorem doTpxIO_read_rejects_iff_witness :
    doTpxIO (ElectricField.init : ElectricField ℚ)
      (TpxAxisRecord.encode ⟨0, 2, [], [], [1, 2], [3, 4]⟩ ++
        (TpxAxisRecord.encode ⟨1, 2, [5], [6], [7, 8], [9, 10]⟩ ++
          (TpxAxisRecord.encode ⟨0, 0, [], [], [], []⟩ ++ []))) true
      = .error (.fatal moreThanOneTermMsg) :=
  (doTpxIO_read_rejects_iff ElectricField.init
    ⟨0, 2, [], [], [1, 2], [3, 4]⟩ ⟨1, 2, [5], [6], [7, 8], [9, 10]⟩ ⟨0, 0, [], [], [], []⟩ []
    (by simp [TpxAxisRecord.WellFormed, INT_MAX])
    (by simp [TpxAxisRecord.WellFormed, INT_MAX])
    (by simp [TpxAxisRecord.WellFormed, INT_MAX])
    (by simp [TpxAxisRecord.PhiFits]) (by simp [TpxAxisRecord.PhiFits])
    (by simp [TpxAxisRecord.PhiFits])).mpr (Or.inr (Or.inl ⟨by decide, Or.inr (by decide)⟩))


/-- The dynamic conversion on an empty token list. -/
theorem convertDynamicParameters_nil {α : Type} (cv : StrConvert α)
    (builder : KeyValueTreeObjectBuilder α) (value : String)
    (hsplit : splitString value = []) :
    convertDynamicParameters cv builder value = (builder, .ok ()) := by
  simp [convertDynamicParameters, hsplit]

/-- The dynamic conversion with count 1. -/
theorem convertDynamicParameters_count_one {α : Type} (cv : StrConvert α)
    (builder : KeyValueTreeObjectBuilder α) (value : String) (sxt0 : String)
    (rest : List String) (hsplit : splitString value = sxt0 :: rest)
    (hcount : cv.fromStringInt sxt0 = .ok 1) :
    convertDynamicParameters cv builder value =
      if rest.length + 1 ≠ 3 then
        (builder, .error (.invalidInput "Please specify 1 omega 0 for non-pulsed fields"))
      else
        match realAt cv (sxt0 :: rest) 1 with
        | .error e => (builder, .error e)
        | .ok v1 => (addValue builder "omega" v1, .ok ()) := by
  simp only [convertDynamicParameters, hsplit, hcount, List.length_cons, if_true]

/-- The dynamic conversion with count 3. -/
theorem convertDynamicParameters_count_three {α : Type} (cv : StrConvert α)
    (builder : KeyValueTreeObjectBuilder α) (value : String) (sxt0 : String)
    (rest : List String) (hsplit : splitString value = sxt0 :: rest)
    (hcount : cv.fromStringInt sxt0 = .ok 3) :
    convertDynamicParameters cv builder value =
      if rest.length + 1 ≠ 7 then
        (builder, .error (.invalidInput
          "Please specify 1 omega 0 t0 0 sigma 0 for pulsed fields"))
      else
        match realAt cv (sxt0 :: rest) 1 with
        | .error e => (builder, .error e)
        | .ok v1 =>
          match realAt cv (sxt0 :: rest) 3 with
          | .error e => (addValue builder "omega" v1, .error e)
          | .ok v3 =>
            match realAt cv (sxt0 :: rest) 5 with
            | .error e => (addValue (addValue builder "omega" v1) "t0" v3, .error e)
            | .ok v5 =>
              (addValue (addValue (addValue builder "omega" v1) "t0" v3) "sigma" v5,
                .ok ()) := by
  have h31 : ¬ ((3 : Int) = 1) := by decide
  simp only [convertDynamicParameters, hsplit, hcount, List.length_cons, if_true, h31,
    if_false]

/-- The dynamic conversion with a count other than 1 and 3. -/
theorem convertDynamicParameters_count_other {α : Type} (cv : StrConvert α)
    (builder : KeyValueTreeObjectBuilder α) (value : String) (sxt0 : String)
    (rest : List String) (n : Int) (hsplit : splitString value = sxt0 :: rest)
    (hcount : cv.fromStringInt sxt0 = .ok n) (h1 : n ≠ 1) (h3 : n ≠ 3) :
    convertDynamicParameters cv builder value =
      (builder, .error (.invalidInput "Incomprehensible input for electric field")) := by
  simp only [convertDynamicParameters, hsplit, hcount, h1, h3, if_false]

/-- The decimal reading of the token "3.0". -/
theorem decimalConvert_three : decimalConvert.fromStringReal "3.0" = .ok (3 : ℚ) := by
  simp [decimalConvert, realFromString, splitSign, digitsValue, digitValue]
  norm_num

/-- The tokens of a list of six. -/
theorem list_length_six {β : Type} (l : List β) (h : l.length = 6) :
    ∃ s1 s2 s3 s4 s5 s6, l = [s1, s2, s3, s4, s5, s6] := by
  match l, h with
  | [s1, s2, s3, s4, s5, s6], _ => exact ⟨s1, s2, s3, s4, s5, s6, rfl⟩

/-- The dynamic conversion on three tokens with count 1: the outcome of the
conversion of the second token decides. -/
theorem convertDynamicParameters_one_tokens {α : Type} (cv : StrConvert α)
    (builder : KeyValueTreeObjectBuilder α) (value : String) (s0 s1 s2 : String)
    (hsplit : splitString value = [s0, s1, s2]) (hcount : cv.fromStringInt s0 = .ok 1) :
    convertDynamicParameters cv builder value =
      match cv.fromStringReal s1 with
      | .error e => (builder, .error e)
      | .ok v1 => (builder ++ [("omega", v1)], .ok ()) := by
  rw [convertDynamicParameters_count_one cv builder value s0 [s1, s2] hsplit hcount]
  simp only [realAt, vectorAt, addValue, List.length_cons, List.length_nil, ne_eq,
    not_true_eq_false, if_false, List.get?_cons_succ, List.get?_cons_zero]

/-- The dynamic conversion on seven tokens with count 3: the keys are added
one by one, each after the conversion of its token. -/
theorem convertDynamicParameters_three_tokens {α : Type} (cv : StrConvert α)
    (builder : KeyValueTreeObjectBuilder α) (value : String) (s0 s1 s2 s3 s4 s5 s6 : String)
    (hsplit : splitString value = [s0, s1, s2, s3, s4, s5, s6])
    (hcount : cv.fromStringInt s0 = .ok 3) :
    convertDynamicParameters cv builder value =
      match cv.fromStringReal s1 with
      | .error e => (builder, .error e)
      | .ok v1 =>
        match cv.fromStringReal s3 with
        | .error e => (builder ++ [("omega", v1)], .error e)
        | .ok v3 =>
          match cv.fromStringReal s5 with
          | .error e => (builder ++ [("omega", v1), ("t0", v3)], .error e)
          | .ok v5 => (builder ++ [("omega", v1), ("t0", v3), ("sigma", v5)], .ok ()) := by
  rw [convertDynamicParameters_count_three cv builder value s0 [s1, s2, s3, s4, s5, s6]
    hsplit hcount]
  simp only [realAt, vectorAt, addValue, List.length_cons, List.length_nil, ne_eq,
    not_true_eq_false, if_false, List.get?_cons_succ, List.get?_cons_zero,
    List.append_assoc, List.cons_append, List.nil_append]

/-- The dynamic conversion fails exactly when the count or the number of
tokens is not supported or a token it converts has no value. -/
theorem convertDynamicParameters_fails_iff {α : Type} (cv : StrConvert α)
    (builder : KeyValueTreeObjectBuilder α) (value : String) (sxt0 : String)
    (rest : List String) (n : Int) (hsplit : splitString value = sxt0 :: rest)
    (hcount : cv.fromStringInt sxt0 = .ok n) :
    (∃ e, (convertDynamicParameters cv builder value).2 = .error e) ↔
      ((n ≠ 1 ∧ n ≠ 3) ∨ (n = 1 ∧ (sxt0 :: rest).length ≠ 3)
        ∨ (n = 3 ∧ (sxt0 :: rest).length ≠ 7)
        ∨ (n = 1 ∧ ∃ s1 s2 e, rest = [s1, s2] ∧ cv.fromStringReal s1 = .error e)
        ∨ (n = 3 ∧ ∃ s1 s2 s3 s4 s5 s6 e, rest = [s1, s2, s3, s4, s5, s6] ∧
            (cv.fromStringReal s1 = .error e ∨ cv.fromStringReal s3 = .error e
              ∨ cv.fromStringReal s5 = .error e))) := by
  simp only [List.length_cons]
  by_cases h1 : n = 1
  · subst h1
    by_cases hlen : rest.length = 2
    · obtain ⟨s1, s2, hrest⟩ := List.length_eq_two.mp hlen
      subst hrest
      rw [convertDynamicParameters_one_tokens cv builder value sxt0 s1 s2 hsplit hcount]
      cases hc : cv.fromStringReal s1 with
      | error e =>
        refine ⟨fun _ => ?_, fun _ => ⟨e, rfl⟩⟩
        exact Or.inr (Or.inr (Or.inr (Or.inl ⟨rfl, s1, s2, e, rfl, hc⟩)))
      | ok v1 =>
        constructor
        · rintro ⟨e, he⟩
          cases he
        · rintro (⟨h, _⟩ | ⟨_, h⟩ | ⟨h, _⟩ | ⟨_, t1, t2, e, ht, he⟩ | ⟨h, _⟩)
          · exact absurd rfl h
          · exact absurd rfl h
          · cases h
          · simp only [List.cons.injEq, and_true] at ht
            rw [← ht.1, hc] at he
            cases he
          · cases h
    · rw [convertDynamicParameters_count_one cv builder value sxt0 rest hsplit hcount]
      have hlen3 : rest.length + 1 ≠ 3 := by omega
      rw [if_pos hlen3]
      exact ⟨fun _ => Or.inr (Or.inl ⟨rfl, hlen3⟩), fun _ => ⟨_, rfl⟩⟩
  · by_cases h3 : n = 3
    · subst h3
      by_cases hlen : rest.length = 6
      · obtain ⟨s1, s2, s3, s4, s5, s6, hrest⟩ := list_length_six rest hlen
        subst hrest
        rw [convertDynamicParameters_three_tokens cv builder value sxt0 s1 s2 s3 s4 s5 s6
          hsplit hcount]
        have hfail : ∀ e, (cv.fromStringReal s1 = .error e ∨ cv.fromStringReal s3 = .error e
            ∨ cv.fromStringReal s5 = .error e) →
            ((3 : Int) ≠ 1 ∧ (3 : Int) ≠ 3) ∨
            ((3 : Int) = 1 ∧ [s1, s2, s3, s4, s5, s6].length + 1 ≠ 3) ∨
            ((3 : Int) = 3 ∧ [s1, s2, s3, s4, s5, s6].length + 1 ≠ 7) ∨
            ((3 : Int) = 1 ∧ ∃ t1 t2 e, [s1, s2, s3, s4, s5, s6] = [t1, t2] ∧
              cv.fromStringReal t1 = .error e) ∨
            ((3 : Int) = 3 ∧ ∃ t1 t2 t3 t4 t5 t6 e,
              [s1, s2, s3, s4, s5, s6] = [t1, t2, t3, t4, t5, t6] ∧
              (cv.fromStringReal t1 = .error e ∨ cv.fromStringReal t3 = .error e
                ∨ cv.fromStringReal t5 = .error e)) :=
          fun e he => Or.inr (Or.inr (Or.inr (Or.inr
            ⟨rfl, s1, s2, s3, s4, s5, s6, e, rfl, he⟩)))
        cases hc1 : cv.fromStringReal s1 with
        | error e => exact ⟨fun _ => hfail e (Or.inl hc1), fun _ => ⟨e, rfl⟩⟩
        | ok v1 =>
          cases hc3 : cv.fromStringReal s3 with
          | error e => exact ⟨fun _ => hfail e (Or.inr (Or.inl hc3)), fun _ => ⟨e, rfl⟩⟩
          | ok v3 =>
            cases hc5 : cv.fromStringReal s5 with
            | error e => exact ⟨fun _ => hfail e (Or.inr (Or.inr hc5)), fun _ => ⟨e, rfl⟩⟩
            | ok v5 =>
              constructor
              · rintro ⟨e, he⟩
                cases he
              · rintro (⟨_, h⟩ | ⟨h, _⟩ | ⟨_, h⟩ | ⟨h, _⟩ |
                  ⟨_, t1, t2, t3, t4, t5, t6, e, ht, he⟩)
                · exact absurd rfl h
                · cases h
                · exact absurd rfl h
                · cases h
                · simp only [List.cons.injEq, and_true] at ht
                  obtain ⟨e1, _, e3, _, e5, _⟩ := ht
                  rw [← e1, ← e3, ← e5, hc1, hc3, hc5] at he
                  rcases he with he | he | he <;> cases he
      · rw [convertDynamicParameters_count_three cv builder value sxt0 rest hsplit hcount]
        have hlen7 : rest.length + 1 ≠ 7 := by omega
        rw [if_pos hlen7]
        exact ⟨fun _ => Or.inr (Or.inr (Or.inl ⟨rfl, hlen7⟩)), fun _ => ⟨_, rfl⟩⟩
    · rw [convertDynamicParameters_count_other cv builder value sxt0 rest n hsplit hcount h1 h3]
      exact ⟨fun _ => Or.inl ⟨h1, h3⟩, fun _ => ⟨_, rfl⟩⟩

/-- A failure of the dynamic conversion for the count or for the number of
tokens is an input error that leaves the builder as it was. -/
theorem convertDynamicParameters_count_failure {α : Type} (cv : StrConvert α)
    (builder : KeyValueTreeObjectBuilder α) (value : String) (sxt0 : String)
    (rest : List String) (n : Int) (hsplit : splitString value = sxt0 :: rest)
    (hcount : cv.fromStringInt sxt0 = .ok n)
    (hbad : (n ≠ 1 ∧ n ≠ 3) ∨ (n = 1 ∧ (sxt0 :: rest).length ≠ 3)
      ∨ (n = 3 ∧ (sxt0 :: rest).length ≠ 7)) :
    ∃ msg, convertDynamicParameters cv builder value
      = (builder, .error (.invalidInput msg)) := by
  simp only [List.length_cons] at hbad
  rcases hbad with ⟨h1, h3⟩ | ⟨h1, hlen⟩ | ⟨h3, hlen⟩
  · exact ⟨_, convertDynamicParameters_count_other cv builder value sxt0 rest n hsplit hcount
      h1 h3⟩
  · subst h1
    rw [convertDynamicParameters_count_one cv builder value sxt0 rest hsplit hcount]
    simp only [hlen, ne_eq, not_false_eq_true, if_true]
    exact ⟨_, rfl⟩
  · subst h3
    rw [convertDynamicParameters_count_three cv builder value sxt0 rest hsplit hcount]
    simp only [hlen, ne_eq, not_false_eq_true, if_true]
    exact ⟨_, rfl⟩

/-- The decimal reading of the token "x": it has no value. -/
theorem decimalConvert_x :
    decimalConvert.fromStringReal "x" = .error (.invalidInput "expected a number") := by
  rfl

/-- C12, as stated, fails: "3 3.0 0 x 0 0.5 0" has the count 3 and seven
tokens, and the conversion fails on its fourth token after the key omega has
been added to the builder. -/
theorem convertDynamicParameters_fails_after_omega :
    convertDynamicParameters decimalConvert [] "3 3.0 0 x 0 0.5 0"
      = ([("omega", (3 : ℚ))], .error (.invalidInput "expected a number")) := by
  rw [convertDynamicParameters_three_tokens decimalConvert [] _ "3" "3.0" "0" "x" "0" "0.5" "0"
    (by decide) (by rfl)]
  simp only [decimalConvert_three, decimalConvert_x, List.nil_append]

/-- C12, amended. Dynamic grammar, rejection: on an empty token list the
conversion is a no-op. On a token list whose first token is the count `n` it
fails exactly when `n` is neither 1 nor 3, or `n = 1` with other than 3
tokens, or `n = 3` with other than 7 tokens, or a token it converts (token 1
for `n = 1`; tokens 1, 3, 5 for `n = 3`) has no value. A failure for the
count or the number of tokens is an input error that adds no key, as is a
failure on token 1; a failure on token 3 comes after the key omega was added,
and a failure on token 5 after omega and t0 were added. In particular the
counts 0 and 2 fail with an input error and no key. -/
theorem convertDynamicParameters_rejection_exact {α : Type} (cv : StrConvert α)
    (builder : KeyValueTreeObjectBuilder α) (value : String) :
    (splitString value = [] → convertDynamicParameters cv builder value = (builder, .ok ())) ∧
    (∀ sxt0 rest n, splitString value = sxt0 :: rest → cv.fromStringInt sxt0 = .ok n →
      ((∃ e, (convertDynamicParameters cv builder value).2 = .error e) ↔
        ((n ≠ 1 ∧ n ≠ 3) ∨ (n = 1 ∧ (sxt0 :: rest).length ≠ 3)
          ∨ (n = 3 ∧ (sxt0 :: rest).length ≠ 7)
          ∨ (n = 1 ∧ ∃ s1 s2 e, rest = [s1, s2] ∧ cv.fromStringReal s1 = .error e)
          ∨ (n = 3 ∧ ∃ s1 s2 s3 s4 s5 s6 e, rest = [s1, s2, s3, s4, s5, s6] ∧
              (cv.fromStringReal s1 = .error e ∨ cv.fromStringReal s3 = .error e
                ∨ cv.fromStringReal s5 = .error e)))) ∧
      (((n ≠ 1 ∧ n ≠ 3) ∨ (n = 1 ∧ (sxt0 :: rest).length ≠ 3)
          ∨ (n = 3 ∧ (sxt0 :: rest).length ≠ 7)) →
        ∃ msg, convertDynamicParameters cv builder value
          = (builder, .error (.invalidInput msg))) ∧
      (∀ s1 s2, n = 1 → rest = [s1, s2] →
        convertDynamicParameters cv builder value =
          match cv.fromStringReal s1 with
          | .error e => (builder, .error e)
          | .ok v1 => (builder ++ [("omega", v1)], .ok ())) ∧
      (∀ s1 s2 s3 s4 s5 s6, n = 3 → rest = [s1, s2, s3, s4, s5, s6] →
        convertDynamicParameters cv builder value =
          match cv.fromStringReal s1 with
          | .error e => (builder, .error e)
          | .ok v1 =>
            match cv.fromStringReal s3 with
            | .error e => (builder ++ [("omega", v1)], .error e)
            | .ok v3 =>
              match cv.fromStringReal s5 with
              | .error e => (builder ++ [("omega", v1), ("t0", v3)], .error e)
              | .ok v5 =>
                (builder ++ [("omega", v1), ("t0", v3), ("sigma", v5)], .ok ())) ∧
      (n = 0 ∨ n = 2 → ∃ msg, convertDynamicParameters cv builder value
        = (builder, .error (.invalidInput msg)))) := by
  refine ⟨convertDynamicParameters_nil cv builder value, ?_⟩
  intro sxt0 rest n hsplit hcount
  refine ⟨convertDynamicParameters_fails_iff cv builder value sxt0 rest n hsplit hcount,
    convertDynamicParameters_count_failure cv builder value sxt0 rest n hsplit hcount,
    ?_, ?_, ?_⟩
  · intro s1 s2 h1 hrest
    subst h1 hrest
    exact convertDynamicParameters_one_tokens cv builder value sxt0 s1 s2 hsplit hcount
  · intro s1 s2 s3 s4 s5 s6 h3 hrest
    subst h3 hrest
    exact convertDynamicParameters_three_tokens cv builder value sxt0 s1 s2 s3 s4 s5 s6
      hsplit hcount
  · intro h02
    apply convertDynamicParameters_count_failure cv builder value sxt0 rest n hsplit hcount
    left
    omega

/-- Witness of the amended C12 with the decimal reading of tokens: the inputs
"0" and "2 3.0 0" fail with an input error and add no key, and the empty
input is a no-op. -/
theorem convertDynamicParameters_rejection_exact_witness :
    (∃ msg, convertDynamicParameters decimalConvert [] "0"
      = ([], .error (.invalidInput msg))) ∧
    (∃ msg, convertDynamicParameters decimalConvert [] "2 3.0 0"
      = ([], .error (.invalidInput msg))) ∧
    convertDynamicParameters decimalConvert [] "" = ([], .ok ()) :=
  ⟨((convertDynamicParameters_rejection_exact decimalConvert [] "0").2 "0" [] 0
      (by decide) (by rfl)).2.2.2.2 (Or.inl rfl),
   ((convertDynamicParameters_rejection_exact decimalConvert [] "2 3.0 0").2 "2" ["3.0", "0"] 2
      (by decide) (by rfl)).2.2.2.2 (Or.inr rfl),
   (convertDynamicParameters_rejection_exact decimalConvert [] "").1 (by decide)⟩


/-- Installing the vectors `v` on a process that is not the coordinating
process sets every axis from the entries of `v`. -/
theorem broadCast_install {α : Type} (self : ElectricField α)
    (stack root : BroadcastVectors α) :
    self.broadCast false stack root
      = .ok { efield_ := fun m =>
                { a_ := root.a1 m, omega_ := root.omega1 m, t0_ := root.t01 m,
                  sigma_ := root.sigma1 m } } := by
  simp only [broadCast, gmx_bcast, Bool.false_eq_true, if_false, Bool.not_false, if_true,
    List.foldlM, bind, Except.bind, pure, Except.pure]
  have h0 := setFieldTerm_axis self 0 (root.a1 0) (root.omega1 0) (root.t01 0) (root.sigma1 0)
  rw [h0]
  simp only []
  rw [setFieldTerm_axis _ 1]
  simp only []
  rw [setFieldTerm_axis _ 2]
  simp only []
  congr 2
  funext k
  fin_cases k <;> simp

/-- C13. Broadcast: with `gmx_bcast` replacing the buffer of every process by
the buffer of the coordinating process, a process that is not the coordinating
process ends with the model `M` of the coordinating process, all four
parameters of all three axes, whatever its own model `L` and whatever its
local vectors held; the coordinating process keeps `M`. -/
theorem broadCast_replicates {α : Type} (M L : ElectricField α)
    (stackM stackL : BroadcastVectors α) :
    L.broadCast false stackL M.loadParameters = .ok M ∧
    M.broadCast true stackM M.loadParameters = .ok M := by
  constructor
  · rw [broadCast_install]
    cases M with
    | mk f => simp [loadParameters, a, omega, t0, sigma]
  · simp [broadCast]

/-- The force array after the first `count` iterations of the loop over the
particles. -/
theorem forceLoop_apply (chargeA : Nat → ℝ) (Ext : ℝ) (m : Fin 3) (count : Nat)
    (f : Nat → Fin 3 → ℝ) (k : Nat) (d : Fin 3) :
    forceLoop chargeA Ext m count f k d
      = if k < count ∧ d = m then f k d + chargeA k * Ext else f k d := by
  induction count with
  | zero => simp [forceLoop]
  | succ i ih =>
    simp only [forceLoop, ih]
    by_cases hd : d = m
    · by_cases hk : k = i
      · subst hk
        simp [hd]
      · by_cases hlt : k < i
        · have : k < i + 1 := by omega
          simp [hd, hk, hlt, this]
        · have : ¬ k < i + 1 := by omega
          simp [hd, hk, hlt, this]
    · simp [hd]

/-- The step of the loop over the axes: with or without the test `Ext != 0`
the array gets `chargeA[i] * Ext` added for the local particles on axis `m`. -/
theorem forceAxis_apply (chargeA : Nat → ℝ) (Ext : ℝ) (m : Fin 3) (count : Nat)
    (f : Nat → Fin 3 → ℝ) (k : Nat) (d : Fin 3) :
    (if Ext ≠ 0 then forceLoop chargeA Ext m count f else f) k d
      = if k < count ∧ d = m then f k d + chargeA k * Ext else f k d := by
  by_cases h : Ext = 0
  · subst h
    simp
  · simp only [ne_eq, h, not_false_eq_true, if_true, forceLoop_apply]

/-- A component with amplitude zero gives the field zero. -/
theorem evaluate_zero_amplitude (term : ElectricFieldData ℝ) (t : ℝ) (ha : term.a_ = 0) :
    term.evaluate t = 0 := by
  simp only [ElectricFieldData.evaluate, ha, zero_mul]
  split <;> rfl

/-- The force array that `calculateForces` returns is the array of the
unguarded update. -/
theorem calculateForces_force (self : ElectricField ℝ) (FIELDFAC : ℝ)
    (fpField_ : Option (List FieldLine)) (master : Bool) (mdatoms : t_mdatoms)
    (f : Nat → Fin 3 → ℝ) (t : ℝ) :
    (self.calculateForces FIELDFAC fpField_ master mdatoms f t).1
      = self.forceContribution FIELDFAC mdatoms f t := by
  funext k d
  have hk : ((k : Int) < mdatoms.homenr) ↔ k < mdatoms.homenr.toNat := by omega
  by_cases hact : self.isActive = true
  · have h1 : (self.calculateForces FIELDFAC fpField_ master mdatoms f t).1
        = [0, 1, 2].foldl (fun (f : Nat → Fin 3 → ℝ) (m : Fin 3) =>
            if FIELDFAC * self.field m t ≠ 0 then
              forceLoop mdatoms.chargeA (FIELDFAC * self.field m t) m mdatoms.homenr.toNat f
            else f) f := by
      simp only [calculateForces, hact, if_true]
      cases fpField_ with
      | none => rfl
      | some lines => cases master <;> rfl
    rw [h1]
    simp only [List.foldl, forceAxis_apply, forceContribution, hk, field]
    by_cases hlt : k < mdatoms.homenr.toNat
    · fin_cases d <;> simp [hlt] <;> ring
    · simp [hlt]
  · have h0 : (self.efield_ 0).a_ = 0 ∧ (self.efield_ 1).a_ = 0 ∧ (self.efield_ 2).a_ = 0 := by
      simpa [isActive, not_or] using hact
    have hz : (self.efield_ d).evaluate t = 0 := by
      apply evaluate_zero_amplitude
      fin_cases d
      · exact h0.1
      · exact h0.2.1
      · exact h0.2.2
    simp [calculateForces, hact, forceContribution, hz]

/-- The field of a static component: amplitude `a`, the other parameters
zero. -/
theorem evaluate_static (a t : ℝ) :
    ElectricFieldData.evaluate ⟨a, 0, 0, 0⟩ t = a := by
  simp [ElectricFieldData.evaluate]

/-- C14. Force contribution: for an active model, after `calculateForces`
every entry `force[i][m]` of a local particle `i < homenr` is its previous
value plus `charge[i] * FIELDFAC * evaluate(field[m], t)`; for one local
particle of charge `q` and a static field `a` on X with zero amplitude on Y
and Z the X delta is `FIELDFAC * a * q` and the Y and Z deltas are zero. -/
theorem calculateForces_contribution (FIELDFAC : ℝ) (fpField_ : Option (List FieldLine))
    (master : Bool) (f : Nat → Fin 3 → ℝ) (t : ℝ) :
    (∀ (self : ElectricField ℝ) (mdatoms : t_mdatoms), self.isActive = true →
      ∀ (i : Nat) (m : Fin 3), (i : Int) < mdatoms.homenr →
        (self.calculateForces FIELDFAC fpField_ master mdatoms f t).1 i m
          = f i m + mdatoms.chargeA i * FIELDFAC * (self.efield_ m).evaluate t) ∧
    (∀ (a q : ℝ) (charges : Nat → ℝ), charges 0 = q →
      (calculateForces ⟨fun m => if m = 0 then ⟨a, 0, 0, 0⟩ else ElectricFieldData.init⟩
          FIELDFAC fpField_ master ⟨1, charges⟩ f t).1 0 0 - f 0 0 = FIELDFAC * a * q ∧
      (calculateForces ⟨fun m => if m = 0 then ⟨a, 0, 0, 0⟩ else ElectricFieldData.init⟩
          FIELDFAC fpField_ master ⟨1, charges⟩ f t).1 0 1 - f 0 1 = 0 ∧
      (calculateForces ⟨fun m => if m = 0 then ⟨a, 0, 0, 0⟩ else ElectricFieldData.init⟩
          FIELDFAC fpField_ master ⟨1, charges⟩ f t).1 0 2 - f 0 2 = 0) := by
  constructor
  · intro self mdatoms _ i m hi
    rw [calculateForces_force]
    simp [forceContribution, hi]
  · intro a q charges hq
    rw [calculateForces_force]
    simp only [forceContribution, ElectricFieldData.init]
    refine ⟨?_, ?_, ?_⟩
    · simp [evaluate_static, hq]
      ring
    · simp [evaluate_static]
    · simp [evaluate_static]

/-- Witness of C14: the model with the static field 2 on X is active, and with
`FIELDFAC = 5` the particle 0 of charge 3 gets 30 added on X. -/
theorem calculateForces_contribution_witness :
    (calculateForces ⟨fun m => if m = 0 then ⟨2, 0, 0, 0⟩ else ElectricFieldData.init⟩
        5 none true ⟨1, fun _ => 3⟩ (fun _ _ => 0) 0).1 0 0
      = 0 + 3 * 5 * ElectricFieldData.evaluate
          (if (0 : Fin 3) = 0 then ⟨2, 0, 0, 0⟩ else ElectricFieldData.init) 0 :=
  (calculateForces_contribution 5 none true (fun _ _ => 0) 0).1
    ⟨fun m => if m = 0 then ⟨2, 0, 0, 0⟩ else ElectricFieldData.init⟩ ⟨1, fun _ => 3⟩
    (by simp [isActive]) 0 0 (by decide)

/-- C15. Force frame: `calculateForces` leaves unchanged every entry of a
particle `i >= homenr` and every entry on an axis whose field is zero; for an
inactive model the whole force array is unchanged; and in every case the
array is the one the unguarded per-axis update produces. -/
theorem calculateForces_frame (self : ElectricField ℝ) (FIELDFAC : ℝ)
    (fpField_ : Option (List FieldLine)) (master : Bool) (mdatoms : t_mdatoms)
    (f : Nat → Fin 3 → ℝ) (t : ℝ) :
    (∀ (i : Nat) (m : Fin 3), mdatoms.homenr ≤ (i : Int) →
      (self.calculateForces FIELDFAC fpField_ master mdatoms f t).1 i m = f i m) ∧
    (∀ (m : Fin 3), (self.efield_ m).evaluate t = 0 → ∀ i : Nat,
      (self.calculateForces FIELDFAC fpField_ master mdatoms f t).1 i m = f i m) ∧
    (self.isActive = false →
      (self.calculateForces FIELDFAC fpField_ master mdatoms f t).1 = f) ∧
    (self.calculateForces FIELDFAC fpField_ master mdatoms f t).1
      = self.forceContribution FIELDFAC mdatoms f t := by
  refine ⟨?_, ?_, ?_, calculateForces_force self FIELDFAC fpField_ master mdatoms f t⟩
  · intro i m hi
    rw [calculateForces_force]
    have : ¬ ((i : Int) < mdatoms.homenr) := by omega
    simp [forceContribution, this]
  · intro m hm i
    rw [calculateForces_force]
    simp [forceContribution, hm]
  · intro hact
    simp [calculateForces, hact]

/-- C18. Single-writer trace: a call of `calculateForces` appends the line
`(t, field X, field Y, field Z)` to the field file when the model is active,
the process is the coordinating process and the file is open, and leaves the
field file as it was in every other case; a process that is not the
coordinating process never appends a line. -/
theorem calculateForces_trace (self : ElectricField ℝ) (FIELDFAC : ℝ)
    (fpField_ : Option (List FieldLine)) (master : Bool) (mdatoms : t_mdatoms)
    (f : Nat → Fin 3 → ℝ) (t : ℝ) :
    (∀ lines, self.isActive = true → master = true → fpField_ = some lines →
      (self.calculateForces FIELDFAC fpField_ master mdatoms f t).2
        = some (lines ++ [(t, (self.efield_ 0).evaluate t, (self.efield_ 1).evaluate t,
            (self.efield_ 2).evaluate t)])) ∧
    (¬ (self.isActive = true ∧ master = true ∧ fpField_.isSome = true) →
      (self.calculateForces FIELDFAC fpField_ master mdatoms f t).2 = fpField_) ∧
    (master = false →
      (self.calculateForces FIELDFAC fpField_ master mdatoms f t).2 = fpField_) := by
  have hrest : ¬ (self.isActive = true ∧ master = true ∧ fpField_.isSome = true) →
      (self.calculateForces FIELDFAC fpField_ master mdatoms f t).2 = fpField_ := by
    intro h
    by_cases hact : self.isActive = true
    · cases fpField_ with
      | none => simp [calculateForces, hact]
      | some lines =>
        cases master with
        | false => simp [calculateForces, hact]
        | true => exact absurd ⟨hact, rfl, rfl⟩ h
    · simp [calculateForces, hact]
  refine ⟨?_, hrest, ?_⟩
  · intro lines hact hmaster hfp
    subst hmaster hfp
    simp [calculateForces, hact, printComponents, field]
  · intro hmaster
    apply hrest
    rintro ⟨_, h, _⟩
    rw [hmaster] at h
    cases h

/-- C20. Amplitude bound: for every component and every time the absolute
value of the field is at most the absolute value of the amplitude, whatever
the sign of the pulse width; a component with amplitude zero gives the field
zero at every time. -/
theorem evaluate_abs_le_amplitude (term : ElectricFieldData ℝ) (t : ℝ) :
    |term.evaluate t| ≤ |term.a_| ∧ (term.a_ = 0 → term.evaluate t = 0) := by
  refine ⟨?_, evaluate_zero_amplitude term t⟩
  have hcos : ∀ x : ℝ, |Real.cos x| ≤ 1 := Real.abs_cos_le_one
  by_cases hs : term.sigma_ > 0
  · simp only [ElectricFieldData.evaluate, hs, if_true, ElectricFieldData.square]
    have hexp : Real.exp (-((t - term.t0_) * (t - term.t0_))
        / (2.0 * (term.sigma_ * term.sigma_))) ≤ 1 := by
      rw [Real.exp_le_one_iff]
      apply div_nonpos_of_nonpos_of_nonneg
      · have := mul_self_nonneg (t - term.t0_)
        linarith
      · have := mul_self_nonneg term.sigma_
        norm_num
        linarith
    have hexp0 : 0 ≤ Real.exp (-((t - term.t0_) * (t - term.t0_))
        / (2.0 * (term.sigma_ * term.sigma_))) := (Real.exp_pos _).le
    rw [abs_mul, abs_mul, abs_of_nonneg hexp0]
    calc |term.a_| * (|Real.cos (term.omega_ * (t - term.t0_))|
            * Real.exp (-((t - term.t0_) * (t - term.t0_))
                / (2.0 * (term.sigma_ * term.sigma_))))
        ≤ |term.a_| * (1 * 1) := by
          apply mul_le_mul_of_nonneg_left _ (abs_nonneg _)
          exact mul_le_mul (hcos _) hexp hexp0 zero_le_one
      _ = |term.a_| := by ring
  · simp only [ElectricFieldData.evaluate, hs, if_false]
    rw [abs_mul]
    calc |term.a_| * |Real.cos (term.omega_ * t)| ≤ |term.a_| * 1 :=
          mul_le_mul_of_nonneg_left (hcos _) (abs_nonneg _)
      _ = |term.a_| := by ring

/-- One call of `cmp_real` appends the report entry of its comparison. -/
theorem cmp_real_eq {α : Type} [LinearOrderedField α] (fp : List (Mismatch α)) (m : Fin 3)
    (i1 i2 reltol abstol : α) :
    cmp_real fp (fieldLabel m) (-1) i1 i2 reltol abstol
      = fp ++ (mismatchOf reltol abstol (m, i1, i2)).toList := by
  by_cases h : equal_real i1 i2 reltol abstol = true
  · simp [cmp_real, mismatchOf, h]
  · simp [cmp_real, mismatchOf, h]

/-- The entries of a list of comparisons: the entry of the first, then the
entries of the others. -/
theorem filterMap_cons_toList {β γ : Type} (g : β → Option γ) (x : β) (xs : List β) :
    (x :: xs).filterMap g = (g x).toList ++ xs.filterMap g := by
  cases h : g x <;> simp [List.filterMap_cons, h]

/-- The report of `compare` is the report it was given followed by the entries
of the failing comparisons, in the order of the comparisons. -/
theorem compare_eq {α : Type} [LinearOrderedField α] (A B : ElectricField α)
    (fp : List (Mismatch α)) (reltol abstol : α) :
    A.compare fp B reltol abstol
      = fp ++ (comparisonPairs A B).filterMap (mismatchOf reltol abstol) := by
  simp only [ElectricField.compare, List.foldl, cmp_real_eq, comparisonPairs,
    comparisonPairsAxis, a, omega, t0, sigma, List.cons_append, List.nil_append,
    filterMap_cons_toList, List.filterMap_nil, List.append_nil, List.append_assoc]

/-- The number of entries of a list of comparisons is the number of failing
comparisons. -/
theorem length_filterMap_mismatchOf {α : Type} [LinearOrderedField α] (reltol abstol : α)
    (ps : List (Fin 3 × α × α)) :
    (ps.filterMap (mismatchOf reltol abstol)).length
      = (ps.filter (fun p => !equal_real p.2.1 p.2.2 reltol abstol)).length := by
  induction ps with
  | nil => simp
  | cons p ps ih =>
    by_cases h : equal_real p.2.1 p.2.2 reltol abstol = true
    · simp [List.filterMap_cons, List.filter_cons, mismatchOf, h, ih]
    · simp [List.filterMap_cons, List.filter_cons, mismatchOf, h, ih]

/-- A value is equal to itself at both tolerances zero. -/
theorem equal_real_self {α : Type} [LinearOrderedField α] (x : α) :
    equal_real x x 0 0 = true := by
  simp [equal_real]

/-- C16. Comparator: `compare` performs twelve checks, one for each axis and
each of amplitude, angularFrequency, pulseCenter, pulseWidth, on the values of
the same axis and the same parameter of the two models; its report is the
report it was given followed by one entry for each check whose values differ
beyond tolerance, `|x-y| > max(absTol, relTol * max(|x|,|y|))`, and none for
the others; two identical models at both tolerances zero give no entry. -/
theorem compare_report {α : Type} [LinearOrderedField α] (A B : ElectricField α)
    (reltol abstol : α) :
    (comparisonPairs A B).length = 12 ∧
    (∀ fp, A.compare fp B reltol abstol
      = fp ++ (comparisonPairs A B).filterMap (mismatchOf reltol abstol)) ∧
    (∀ p : Fin 3 × α × α, mismatchOf reltol abstol p
      = if |p.2.1 - p.2.2| ≤ max abstol (reltol * max |p.2.1| |p.2.2|) then none
        else some { s := fieldLabel p.1, index := -1, i1 := p.2.1, i2 := p.2.2 }) ∧
    (A.compare [] B reltol abstol).length
      = ((comparisonPairs A B).filter
          (fun p => !equal_real p.2.1 p.2.2 reltol abstol)).length ∧
    A.compare [] A 0 0 = [] := by
  refine ⟨rfl, fun fp => compare_eq A B fp reltol abstol, ?_, ?_, ?_⟩
  · intro p
    simp [mismatchOf, equal_real]
  · rw [compare_eq, List.nil_append, length_filterMap_mismatchOf]
  · rw [compare_eq]
    simp [comparisonPairs, comparisonPairsAxis, mismatchOf, equal_real_self]

/-- Witness of C16 over the rationals: two models that differ in the
amplitude of X and in the pulse width of Z, at both tolerances zero, give two
entries, labelled with the axes X and Z. -/
theorem compare_report_witness :
    ElectricField.compare
      (⟨fun m => if m = 0 then ⟨1, 2, 3, 4⟩ else ⟨5, 6, 7, 8⟩⟩ : ElectricField ℚ) []
      ⟨fun m => if m = 0 then ⟨9, 2, 3, 4⟩ else if m = 1 then ⟨5, 6, 7, 8⟩ else ⟨5, 6, 7, 0⟩⟩
      0 0
      = [⟨"inputrec->field[0]", -1, 1, 9⟩, ⟨"inputrec->field[2]", -1, 8, 0⟩] := by
  have h0 : fieldLabel 0 = "inputrec->field[0]" := by decide
  have h2 : fieldLabel 2 = "inputrec->field[2]" := by decide
  have h19 : ¬ ((1 : ℚ) - 9 = 0) := by norm_num
  rw [(compare_report _ _ 0 0).2.1 []]
  simp [comparisonPairs, comparisonPairsAxis, filterMap_cons_toList, mismatchOf, equal_real,
    h0, h2, h19]

/-- Binding one key keeps the pulse width non-negative when the value bound
to the key sigma is non-negative. -/
theorem assignOption_sigma_nonneg {α : Type} [Zero α] [LinearOrder α]
    (term : ElectricFieldData α) (kv : String × α) (hkv : kv.1 = "sigma" → 0 ≤ kv.2)
    (h : 0 ≤ term.sigma_) : 0 ≤ (term.assignOption kv).sigma_ := by
  unfold ElectricFieldData.assignOption
  split
  · exact h
  · split
    · exact h
    · split
      · exact h
      · split
        · next hs => exact hkv hs
        · exact h

/-- Binding the keys of a builder keeps the pulse width non-negative when the
values bound to the key sigma are non-negative. -/
theorem assignOptions_sigma_nonneg {α : Type} [Zero α] [LinearOrder α]
    (kvs : KeyValueTreeObjectBuilder α) :
    ∀ term : ElectricFieldData α, (∀ v, ("sigma", v) ∈ kvs → 0 ≤ v) → 0 ≤ term.sigma_ →
      0 ≤ (term.assignOptions kvs).sigma_ := by
  induction kvs with
  | nil =>
    intro term _ h
    exact h
  | cons kv kvs ih =>
    intro term hkvs h
    simp only [ElectricFieldData.assignOptions, List.foldl_cons]
    apply ih
    · intro v hv
      exact hkvs v (List.mem_cons_of_mem _ hv)
    · apply assignOption_sigma_nonneg term kv _ h
      intro hkey
      apply hkvs kv.2
      have : kv = ("sigma", kv.2) := by
        rw [← hkey]
      rw [← this]
      exact List.mem_cons_self _ _

/-- Reading one axis keeps the pulse widths non-negative when the pulse widths
of the record are non-negative. -/
theorem doTpxIOAxis_read_sigma_nonneg {α : Type} [Zero α] [LinearOrder α]
    (p p1 : ElectricField α) (r : TpxAxisRecord α) (rest rest1 : t_fileio α) (j : Fin 3)
    (hwf : r.WellFormed) (hfit : r.PhiFits) (hphit : ∀ v ∈ r.phit, 0 ≤ v)
    (hp : ∀ k, 0 ≤ p.sigma k)
    (hread : doTpxIOAxis p (r.encode ++ rest) true j = .ok (p1, rest1)) :
    (∀ k, 0 ≤ p1.sigma k) ∧ rest1 = rest := by
  rw [doTpxIOAxis_read p r rest j hwf hfit] at hread
  have hhead : (0 : α) ≤ r.phit.head?.getD 0 := by
    cases hl : r.phit with
    | nil => simp
    | cons v vs =>
      simp only [List.head?_cons, Option.getD_some]
      exact hphit v (by rw [hl]; exact List.mem_cons_self _ _)
  split at hread
  · split at hread
    · cases hread
    · simp only [Except.ok.injEq, Prod.mk.injEq] at hread
      obtain ⟨h1, h2⟩ := hread
      refine ⟨?_, h2.symm⟩
      intro k
      rw [← h1]
      simp only [sigma]
      split
      · exact hhead
      · exact hp k
  · simp only [Except.ok.injEq, Prod.mk.injEq] at hread
    obtain ⟨h1, h2⟩ := hread
    refine ⟨?_, h2.symm⟩
    rw [← h1]
    exact hp

/-- Reading a record of three axes keeps the pulse widths non-negative when
the pulse widths of the record are non-negative. -/
theorem doTpxIO_read_sigma_nonneg {α : Type} [Zero α] [LinearOrder α]
    (p p1 : ElectricField α) (rx ry rz : TpxAxisRecord α) (rest rest1 : t_fileio α)
    (hx : rx.WellFormed ∧ rx.PhiFits ∧ ∀ v ∈ rx.phit, 0 ≤ v)
    (hy : ry.WellFormed ∧ ry.PhiFits ∧ ∀ v ∈ ry.phit, 0 ≤ v)
    (hz : rz.WellFormed ∧ rz.PhiFits ∧ ∀ v ∈ rz.phit, 0 ≤ v)
    (hp : ∀ k, 0 ≤ p.sigma k)
    (hread : doTpxIO p (rx.encode ++ (ry.encode ++ (rz.encode ++ rest))) true
      = .ok (p1, rest1)) :
    ∀ k, 0 ≤ p1.sigma k := by
  rw [doTpxIO_unroll] at hread
  cases h0 : doTpxIOAxis p (rx.encode ++ (ry.encode ++ (rz.encode ++ rest))) true 0 with
  | error e =>
    rw [h0] at hread
    cases hread
  | ok st0 =>
    rw [h0] at hread
    simp only [Except.bind] at hread
    obtain ⟨q0, s0⟩ := st0
    obtain ⟨i0, rfl⟩ := doTpxIOAxis_read_sigma_nonneg p q0 rx _ s0 0 hx.1 hx.2.1 hx.2.2 hp h0
    cases h1 : doTpxIOAxis q0 (ry.encode ++ (rz.encode ++ rest)) true 1 with
    | error e =>
      simp only [h1] at hread
      cases hread
    | ok st1 =>
      simp only [h1] at hread
      obtain ⟨q1, s1⟩ := st1
      obtain ⟨i1, rfl⟩ := doTpxIOAxis_read_sigma_nonneg q0 q1 ry _ s1 1 hy.1 hy.2.1 hy.2.2 i0 h1
      exact (doTpxIOAxis_read_sigma_nonneg q1 p1 rz _ rest1 2 hz.1 hz.2.1 hz.2.2 i1 hread).1

/-- An operation whose pulse widths are non-negative keeps the pulse widths of
the model non-negative. -/
theorem FieldOp.run_sigma_nonneg {α : Type} [Zero α] [LinearOrder α] (cv : StrConvert α)
    (op : FieldOp α) (m m1 : ElectricField α) (hop : op.PulseWidthsNonneg cv)
    (hm : ∀ k, 0 ≤ m.sigma k) (hrun : op.run cv m = .ok m1) :
    ∀ k, 0 ≤ m1.sigma k := by
  cases op with
  | setFieldTerm dim a omega t0 sig =>
    simp only [FieldOp.run, ElectricField.setFieldTerm] at hrun
    simp only [FieldOp.PulseWidthsNonneg] at hop
    split at hrun
    · simp only [Except.ok.injEq] at hrun
      intro k
      rw [← hrun]
      simp only [sigma, ElectricFieldData.setField]
      split
      · exact hop
      · exact hm k
    · cases hrun
  | readTpx rx ry rz =>
    simp only [FieldOp.run] at hrun
    simp only [FieldOp.PulseWidthsNonneg] at hop
    cases hread : doTpxIO m (rx.encode ++ (ry.encode ++ (rz.encode ++ []))) true with
    | error e =>
      rw [hread] at hrun
      cases hrun
    | ok st =>
      obtain ⟨q, s⟩ := st
      rw [hread] at hrun
      simp only [Except.ok.injEq] at hrun
      rw [← hrun]
      exact doTpxIO_read_sigma_nonneg m q rx ry rz [] s hop.1 hop.2.1 hop.2.2 hm hread
  | broadCast master stack root =>
    simp only [FieldOp.run] at hrun
    simp only [FieldOp.PulseWidthsNonneg] at hop
    cases master with
    | true =>
      simp only [ElectricField.broadCast, Bool.not_true, Bool.false_eq_true, if_false,
        Except.ok.injEq] at hrun
      rw [← hrun]
      exact hm
    | false =>
      rw [broadCast_install] at hrun
      simp only [Except.ok.injEq] at hrun
      intro k
      rw [← hrun]
      exact hop k
  | bindDynamic dim value =>
    simp only [FieldOp.run] at hrun
    simp only [FieldOp.PulseWidthsNonneg] at hop
    split at hrun
    · next kvs u heq =>
      simp only [Except.ok.injEq] at hrun
      intro k
      rw [← hrun]
      simp only [sigma]
      split
      · apply assignOptions_sigma_nonneg kvs _ _ (hm k)
        intro v hv
        apply hop v
        rw [heq]
        exact hv
      · exact hm k
    · cases hrun

/-- A sequence of operations whose pulse widths are non-negative keeps the
pulse widths of the model non-negative. -/
theorem runOps_sigma_nonneg {α : Type} [Zero α] [LinearOrder α] (cv : StrConvert α)
    (ops : List (FieldOp α)) :
    ∀ (m m1 : ElectricField α), (∀ op ∈ ops, op.PulseWidthsNonneg cv) →
      (∀ k, 0 ≤ m.sigma k) → runOps cv ops m = .ok m1 → ∀ k, 0 ≤ m1.sigma k := by
  induction ops with
  | nil =>
    intro m m1 _ hm hrun
    simp only [runOps, List.foldlM, pure, Except.pure, Except.ok.injEq] at hrun
    rw [← hrun]
    exact hm
  | cons op ops ih =>
    intro m m1 hops hm hrun
    simp only [runOps, List.foldlM, bind, Except.bind] at hrun
    cases hstep : op.run cv m with
    | error e =>
      rw [hstep] at hrun
      cases hrun
    | ok m2 =>
      rw [hstep] at hrun
      have h2 := FieldOp.run_sigma_nonneg cv op m m2 (hops op (List.mem_cons_self _ _)) hm hstep
      exact ih m2 m1 (fun o ho => hops o (List.mem_cons_of_mem _ ho)) h2 hrun

/-- C17, as stated, fails: from the default model, `setFieldTerm` with the
pulse width -1 succeeds and leaves the axis X with a negative pulse width. -/
theorem pulseWidth_negative_after_setFieldTerm :
    ∃ m, runOps decimalConvert [FieldOp.setFieldTerm 0 1 0 0 (-1)]
        (ElectricField.init : ElectricField ℚ) = .ok m ∧ m.sigma 0 < 0 := by
  refine ⟨_, rfl, ?_⟩
  simp [ElectricField.sigma, ElectricFieldData.setField]

/-- C17, amended. No operation checks the sign of a pulse width; each stores
the value it is handed. Starting from the default model, after any sequence
of the operations (`setFieldTerm`, `doTpxIO` in read mode on a record that
carries the values its counts declare, `broadCast`, binding of the keys that
`convertDynamicParameters` produces) in which every pulse width handed to an
operation is non-negative, every axis has a non-negative pulse width. -/
theorem pulseWidth_nonneg_of_nonneg_inputs {α : Type} [Zero α] [LinearOrder α]
    (cv : StrConvert α) (ops : List (FieldOp α)) (m1 : ElectricField α)
    (hops : ∀ op ∈ ops, op.PulseWidthsNonneg cv)
    (hrun : runOps cv ops ElectricField.init = .ok m1) :
    ∀ k, 0 ≤ m1.sigma k :=
  runOps_sigma_nonneg cv ops ElectricField.init m1 hops
    (fun _ => le_of_eq rfl) hrun

/-- Witness of the amended C17: `setFieldTerm` with pulse width 4 on X, then
the read of a record whose three axes declare no term. -/
theorem pulseWidth_nonneg_of_nonneg_inputs_witness :
    0 ≤ ElectricField.sigma
      (⟨fun m => if (m.val : Int) = 0 then ⟨1, 2, 3, 4⟩ else ElectricFieldData.init⟩ :
        ElectricField ℚ) 0 ∧
    0 ≤ ElectricField.sigma
      (⟨fun m => if (m.val : Int) = 0 then ⟨1, 2, 3, 4⟩ else ElectricFieldData.init⟩ :
        ElectricField ℚ) 1 ∧
    0 ≤ ElectricField.sigma
      (⟨fun m => if (m.val : Int) = 0 then ⟨1, 2, 3, 4⟩ else ElectricFieldData.init⟩ :
        ElectricField ℚ) 2 :=
  (fun h => ⟨h 0, h 1, h 2⟩) <| pulseWidth_nonneg_of_nonneg_inputs decimalConvert
    [FieldOp.setFieldTerm 0 1 2 3 4,
     FieldOp.readTpx ⟨0, 0, [], [], [], []⟩ ⟨0, 0, [], [], [], []⟩ ⟨0, 0, [], [], [], []⟩]
    _
    (by
      intro op hop
      simp only [List.mem_cons, List.mem_singleton, List.mem_nil_iff, or_false] at hop
      rcases hop with h | h
      · subst h
        simp [FieldOp.PulseWidthsNonneg]
      · subst h
        simp [FieldOp.PulseWidthsNonneg, TpxAxisRecord.WellFormed, TpxAxisRecord.PhiFits,
          INT_MAX])
    (by rfl)

/-- Reading more values than the buffer has slots left writes outside the
buffer. -/
theorem gmx_fio_ndo_real_loop_overrun {α : Type} (vals : List α) :
    ∀ (i : Nat) (item : List α) (rest : t_fileio α), i ≤ item.length →
      item.length < i + vals.length →
      gmx_fio_ndo_real_loop true vals.length i item (vals.map TpxItem.real ++ rest)
        = .error (.undefinedBehaviour "write outside the buffer") := by
  induction vals with
  | nil =>
    intro i item rest h1 h2
    simp only [List.length_nil, Nat.add_zero] at h2
    omega
  | cons v vs ih =>
    intro i item rest h1 h2
    simp only [List.length_cons] at h2
    by_cases hi : i < item.length
    · simp only [List.length_cons, List.map_cons, List.cons_append, gmx_fio_ndo_real_loop,
        gmx_fio_do_real, if_true, hi]
      exact ih (i + 1) (item.set i v) rest (by simp; omega) (by simp; omega)
    · simp only [List.length_cons, List.map_cons, List.cons_append, gmx_fio_ndo_real_loop,
        gmx_fio_do_real, if_true, hi, if_false]

/-- Reading a well-formed axis record that declares more static terms than
`nt + 1` writes outside the pulseCenter buffer. -/
theorem doTpxIOAxis_read_overrun {α : Type} [Zero α] [DecidableEq α] (p : ElectricField α)
    (r : TpxAxisRecord α) (rest : t_fileio α) (j : Fin 3)
    (hwf : r.WellFormed) (hover : r.nt + 1 < r.n) :
    doTpxIOAxis p (r.encode ++ rest) true j
      = .error (.undefinedBehaviour "write outside the buffer") := by
  obtain ⟨hn0, hnmax, hnt0, hntmax, haa, hphi, hat, hphit⟩ := hwf
  simp only [INT_MAX] at hnmax hntmax
  have hs : r.encode ++ rest = TpxItem.int r.n :: TpxItem.int r.nt ::
      (r.aa.map TpxItem.real ++ (r.phi.map TpxItem.real ++
        (r.at_.map TpxItem.real ++ (r.phit.map TpxItem.real ++ rest)))) := by
    simp [TpxAxisRecord.encode]
  have hlen1 : (List.replicate (r.n + 1).toNat (0 : α)).length = (r.n + 1).toNat := by simp
  have hlen2 : (List.replicate (r.nt + 1).toNat (0 : α)).length = (r.nt + 1).toNat := by simp
  have e1 := gmx_fio_ndo_real_read r.aa (List.replicate (r.n + 1).toNat 0)
    (r.phi.map TpxItem.real ++ (r.at_.map TpxItem.real ++ (r.phit.map TpxItem.real ++ rest)))
    r.n haa.symm (by rw [hlen1]; omega)
  have e2 : gmx_fio_ndo_real
      (r.phi.map TpxItem.real ++ (r.at_.map TpxItem.real ++ (r.phit.map TpxItem.real ++ rest)))
      true (List.replicate (r.nt + 1).toNat (0 : α)) r.n
      = .error (.undefinedBehaviour "write outside the buffer") := by
    have h := gmx_fio_ndo_real_loop_overrun r.phi 0 (List.replicate (r.nt + 1).toNat (0 : α))
      (r.at_.map TpxItem.real ++ (r.phit.map TpxItem.real ++ rest)) (Nat.zero_le _)
      (by rw [hlen2]; omega)
    simp only [gmx_fio_ndo_real, ← hphi, h]
  have b1 : r.n + 1 ≤ 2147483647 := by omega
  have b2 : r.nt + 1 ≤ 2147483647 := by omega
  have b3 : ¬ (r.n + 1 < 0) := by omega
  have b4 : ¬ (r.nt + 1 < 0) := by omega
  rw [hs]
  simp only [doTpxIOAxis, gmx_fio_do_int, intSucc, vectorResize, INT_MAX, bind, Except.bind,
    pure, Except.pure, b1, b2, b3, b4, if_true, if_false, Bool.not_true, Bool.false_eq_true,
    true_and, e1, e2]

/-- C19. The failing input of the buffer sizing: an axis that declares
`n = 2` and `nt = 0`. The reader sizes the pulseCenter buffer `nt + 1 = 1` and
reads `n = 2` values into it, so the second value is written outside the
buffer. -/
theorem doTpxIO_read_pulseCenter_overrun :
    doTpxIO (ElectricField.init : ElectricField ℚ)
      [.int 2, .int 0, .real 1, .real 2, .real 3, .real 4,
       .int 0, .int 0, .int 0, .int 0] true
      = .error (.undefinedBehaviour "write outside the buffer") := by
  rfl

end gmx
